import Mathlib

/-!
# Greeting service (`greeting-service-go/main.go`)

A shallow embedding of the three functions of `main.go`: the handler `greet`, the
background loop `startPeriodicLogging`, and the start and stop sequence of `main`.

Conventions of the embedding.

* A Go `string` is a list of bytes (`GoString`); literals of the source are written
  `ascii "..."`.
* The standard logger is the list of records written to it, one per call of
  `log.Printf`, `log.Println` or `log.Fatalf`, each holding the text that `log.Output`
  writes after the time stamp.
* `http.ResponseWriter` is a record of the status and of the body written so far.
* Go's `int` is a 64-bit two's complement integer: arithmetic on it is wrapped by
  `wrapInt64`.
* Values that come from outside the program text (random draws, the clock, results of
  network operations, operating-system signals) are inputs of the definitions.
-/

namespace Greeter

/-! ## Strings and `fmt` -/

/-- A Go string: a sequence of bytes, not necessarily valid UTF-8. -/
abbrev GoString := List UInt8

/-- The bytes of an ASCII string literal of the source. -/
def ascii (s : String) : GoString :=
  s.toList.map (fun c => UInt8.ofNat c.toNat)

/-- Decimal digits of `n`, most significant first, pushed in front of `acc`;
`fuel` bounds the number of digits. -/
def natDigits : Nat → Nat → GoString → GoString
  | 0, _, acc => acc
  | fuel + 1, n, acc =>
    let acc' := UInt8.ofNat (48 + n % 10) :: acc
    if n / 10 = 0 then acc' else natDigits fuel (n / 10) acc'

/-- Base-10 text of a natural number (`n + 1` digits of fuel always suffice). -/
def formatNat (n : Nat) : GoString :=
  natDigits (n + 1) n []

/-- Base-10 text of an integer, as `%d` prints it: a minus sign for negatives. -/
def formatInt (n : Int) : GoString :=
  if n < 0 then 45 :: formatNat n.natAbs else formatNat n.natAbs

/-- An operand of a formatting call. The program passes strings, integers, and values
printed through their `String()` or `Error()` method (a `time.Duration`, an `error`),
which are embedded as the string that method returns. -/
inductive Arg where
  | str (s : GoString)
  | int (n : Int)

/-- Go type name of an operand, as it appears in `fmt` diagnostics. -/
def Arg.typeName : Arg → GoString
  | .str _ => ascii "string"
  | .int _ => ascii "int"

/-- Default (`%v`) text of an operand. -/
def Arg.value : Arg → GoString
  | .str s => s
  | .int n => formatInt n

/-- The text `%!verb(type=value)` that `fmt` prints for a verb the operand does not
support. -/
def badVerb (verb : UInt8) (a : Arg) : GoString :=
  ascii "%!" ++ [verb] ++ ascii "(" ++ a.typeName ++ ascii "=" ++ a.value ++ ascii ")"

/-- One operand printed under one verb. Modelled verbs: `s` (115) and `v` (118) on
strings, `d` (100) and `v` on integers; these are the verbs of the program's format
strings. The operand's bytes are copied as they are. -/
def printArg (a : Arg) (verb : UInt8) : GoString :=
  match a with
  | .str s => if verb = 115 ∨ verb = 118 then s else badVerb verb a
  | .int n => if verb = 100 ∨ verb = 118 then formatInt n else badVerb verb a

/-- Operands left over after the format is exhausted, as listed in `%!(EXTRA ...)`. -/
def joinExtra : List Arg → GoString
  | [] => []
  | [a] => a.typeName ++ ascii "=" ++ a.value
  | a :: b :: rest =>
    a.typeName ++ ascii "=" ++ a.value ++ ascii ", " ++ joinExtra (b :: rest)

/-- What `fmt` appends when operands remain unused. -/
def extraSuffix : List Arg → GoString
  | [] => []
  | a :: rest => ascii "%!(EXTRA " ++ joinExtra (a :: rest) ++ ascii ")"

/-- The scanning loop of `fmt` (`doPrintf`) for ASCII format strings without flags,
width, precision or argument indexes, which is the form of every format string of the
program. Bytes other than `%` (37) are copied; `%%` prints a percent sign; `%` followed
by a verb consumes the next operand. Only the format is scanned for verbs: the text of
an operand is never scanned. -/
def doPrintf : GoString → List Arg → GoString
  | [], args => extraSuffix args
  | c :: fmt, args =>
    if c ≠ 37 then c :: doPrintf fmt args
    else
      match fmt with
      | [] => ascii "%!(NOVERB)" ++ extraSuffix args
      | verb :: fmt' =>
        if verb = 37 then 37 :: doPrintf fmt' args
        else
          match args with
          | [] => ascii "%!" ++ [verb] ++ ascii "(MISSING)" ++ doPrintf fmt' []
          | a :: args' => printArg a verb ++ doPrintf fmt' args'

/-- Translation of `fmt.Sprintf`. -/
def Sprintf (format : GoString) (args : List Arg) : GoString :=
  doPrintf format args

/-! ## The standard logger -/

/-- The standard logger's output: the records written so far, oldest first. -/
abbrev Log := List GoString

/-- Translation of `log.Output`: one record is written per call, and a newline (10) is
appended to the message when it does not already end in one. The time stamp that
precedes the message is left out: it depends on the clock only. -/
def logOutput (log : Log) (s : GoString) : Log :=
  log ++ [if s.getLast? = some 10 then s else s ++ [10]]

/-- Translation of `log.Printf`. -/
def logPrintf (log : Log) (format : GoString) (args : List Arg) : Log :=
  logOutput log (Sprintf format args)

/-- Translation of `log.Println` with a single string operand: `Sprintln` adds the
newline. -/
def logPrintln (log : Log) (s : GoString) : Log :=
  logOutput log (s ++ [10])

/-- Number of lines a record occupies in the log stream: its newline bytes. -/
def lineCount (record : GoString) : Nat :=
  record.count 10

/-! ## HTTP request and response -/

/-- Translation of `url.Values`, a map from keys to the list of their values, as an
association list (the first entry of a key is the map's entry). -/
abbrev Values := List (GoString × List GoString)

/-- Translation of `Values.Get`: the first value of the key, or the empty string when
the key is absent or has no value. -/
def Values.Get (v : Values) (key : GoString) : GoString :=
  match v.lookup key with
  | none => []
  | some [] => []
  | some (x :: _) => x

/-- The part of `url.URL` the handler reads: the parsed query. -/
structure URL where
  query : Values
deriving DecidableEq, Repr

/-- Translation of `URL.Query`. -/
def URL.Query (u : URL) : Values :=
  u.query

/-- The part of `http.Request` the handler reads. -/
structure Request where
  URL : URL
  RemoteAddr : GoString
deriving DecidableEq, Repr

/-- Translation of `http.StatusOK`. -/
def StatusOK : Nat := 200

/-- State of an `http.ResponseWriter`: whether the status line has been written, the
status, and the body bytes written so far. -/
structure ResponseWriter where
  wroteHeader : Bool
  status : Nat
  body : GoString
deriving DecidableEq, Repr

/-- The writer the server hands to a handler. -/
def ResponseWriter.fresh : ResponseWriter :=
  { wroteHeader := false, status := 0, body := [] }

/-- Translation of `ResponseWriter.WriteHeader`: only the first call has an effect. -/
def ResponseWriter.WriteHeader (w : ResponseWriter) (code : Nat) : ResponseWriter :=
  if w.wroteHeader then w else { w with wroteHeader := true, status := code }

/-- Translation of `ResponseWriter.Write`: the first write sends status 200 when no
status was set, then the bytes are appended to the body. -/
def ResponseWriter.Write (w : ResponseWriter) (p : GoString) : ResponseWriter :=
  let w1 := if !w.wroteHeader then w.WriteHeader StatusOK else w
  { w1 with body := w1.body ++ p }

/-- What the server does when the handler has returned: status 200 is sent if the
handler set none. -/
def ResponseWriter.finish (w : ResponseWriter) : ResponseWriter :=
  if !w.wroteHeader then w.WriteHeader StatusOK else w

/-- Translation of `fmt.Fprintf` on a response writer: the formatted text is written
with one call of `Write`. -/
def Fprintf (w : ResponseWriter) (format : GoString) (args : List Arg) : ResponseWriter :=
  w.Write (Sprintf format args)

/-! ## `greet` -/

/-- Translation of `greet` (main.go, lines 68 to 75). The handler has no result; its
effects are the new state of the response writer and of the logger. -/
def greet (w : ResponseWriter) (r : Request) (log : Log) : ResponseWriter × Log :=
  let name := r.URL.Query.Get (ascii "name")
  let name := if name = [] then ascii "Stranger" else name
  let log := logPrintf log (ascii "INFO: Greeting request received for name: %s from %s")
    [.str name, .str r.RemoteAddr]
  let w := Fprintf w (ascii "Hello, %s!\n") [.str name]
  (w, log)

/-- The response the server sends for a request routed to `greet`: the handler runs on
a fresh writer, then the server finishes the response. -/
def serveGreet (r : Request) (log : Log) : ResponseWriter × Log :=
  let (w, log) := greet ResponseWriter.fresh r log
  (w.finish, log)

/-- A request whose query is the given list of `key=value` pairs. -/
def mkRequest (params : List (GoString × GoString)) (addr : GoString) : Request :=
  { URL := { query := params.map (fun kv => (kv.1, [kv.2])) }, RemoteAddr := addr }

/-! ## Requests handled concurrently

The server runs the handler of each connection in a goroutine of its own. A goroutine
that runs `greet` is embedded as a task with a program counter; the scheduler picks
which task performs its next statement. The only object the tasks have in common is the
standard logger. -/

/-- Position of a goroutine inside `greet`: before line 69, before line 73, before line
74, and after the last statement. -/
inductive HandlerPc where
  | atQuery
  | atLog
  | atWrite
  | returned
deriving DecidableEq, Repr

/-- A goroutine running `greet`: its request, its position, its local variable `name`
and its own response writer. -/
structure Task where
  r : Request
  pc : HandlerPc
  name : GoString
  w : ResponseWriter

/-- The task the server creates for a request. -/
def Task.start (r : Request) : Task :=
  { r := r, pc := .atQuery, name := [], w := ResponseWriter.fresh }

/-- One statement of `greet` performed by a task: lines 69 to 72, line 73, line 74. -/
def Task.step (t : Task) (log : Log) : Task × Log :=
  match t.pc with
  | .atQuery =>
    let name := t.r.URL.Query.Get (ascii "name")
    let name := if name = [] then ascii "Stranger" else name
    ({ t with name := name, pc := .atLog }, log)
  | .atLog =>
    ({ t with pc := .atWrite },
      logPrintf log (ascii "INFO: Greeting request received for name: %s from %s")
        [.str t.name, .str t.r.RemoteAddr])
  | .atWrite =>
    ({ t with w := Fprintf t.w (ascii "Hello, %s!\n") [.str t.name], pc := .returned }, log)
  | .returned => (t, log)

/-- The tasks of the requests being handled, and the logger they share. -/
structure Pool where
  tasks : List Task
  log : Log

/-- The pool right after the requests have been accepted. -/
def Pool.start (reqs : List Request) (log : Log) : Pool :=
  { tasks := reqs.map Task.start, log := log }

/-- The scheduler lets task `i` perform one statement (nothing happens when there is no
such task). -/
def Pool.step (p : Pool) (i : Nat) : Pool :=
  match p.tasks[i]? with
  | none => p
  | some t =>
    let (t1, log1) := t.step p.log
    { tasks := p.tasks.set i t1, log := log1 }

/-- A schedule: the tasks in the order in which they perform their statements. -/
def Pool.run (p : Pool) (sched : List Nat) : Pool :=
  sched.foldl Pool.step p

/-- The response sent for a task: the server finishes the response once the handler has
returned. -/
def Task.response (t : Task) : ResponseWriter :=
  t.w.finish

/-- Number of statements of `greet` a task has performed. -/
def HandlerPc.rank : HandlerPc → Nat
  | .atQuery => 0
  | .atLog => 1
  | .atWrite => 2
  | .returned => 3

/-- The name `greet` puts in the greeting of a request, as lines 69 to 72 compute it. -/
def resolvedName (r : Request) : GoString :=
  if r.URL.Query.Get (ascii "name") = [] then ascii "Stranger"
  else r.URL.Query.Get (ascii "name")

/-- Invariant of the task created for request `r`: it still holds `r`, its writer is
untouched until line 74 has run and holds the greeting of `r` afterwards, and its local
variable holds the resolved name of `r` once lines 69 to 72 have run. -/
def Task.Inv (r : Request) (t : Task) : Prop :=
  t.r = r ∧
  (t.pc = .atQuery → t.w = ResponseWriter.fresh) ∧
  (t.pc = .atLog ∨ t.pc = .atWrite → t.w = ResponseWriter.fresh ∧ t.name = resolvedName r) ∧
  (t.pc = .returned →
    t.w = ResponseWriter.fresh.Write (ascii "Hello, " ++ resolvedName r ++ ascii "!\n"))

/-- Two requests used as a running example: `name=Alice` and `name=Bob`, from two
addresses. -/
def aliceAndBob : List Request :=
  [ mkRequest [(ascii "name", ascii "Alice")] (ascii "10.0.0.1:40000"),
    mkRequest [(ascii "name", ascii "Bob")] (ascii "10.0.0.2:40000") ]

/-! ## `startPeriodicLogging` -/

/-- Go's `int` on the 64-bit platforms the service is built for: the result of an
arithmetic operation is reduced into the range from `-2^63` to `2^63 - 1`
(`2^63 = 9223372036854775808` and `2^64 = 18446744073709551616`). -/
def wrapInt64 (x : Int) : Int :=
  (x + 9223372036854775808) % 18446744073709551616 - 9223372036854775808

/-- A `time.Duration` outside the 64-bit range is replaced by the nearest bound, as
`Time.Sub` does. -/
def saturateInt64 (x : Int) : Int :=
  if x < -9223372036854775808 then -9223372036854775808
  else if 9223372036854775807 < x then 9223372036854775807
  else x

/-- Translation of `time.Second`, in nanoseconds. -/
def Second : Int := 1000000000

/-- Translation of `rand.Intn`: it panics (`none`) when `n ≤ 0`, and otherwise returns a
number from `0` to `n - 1`. Which one depends on the generator's state: `draw` is the
raw number the generator supplies for this call. -/
def Intn (draw : Nat) (n : Int) : Option Int :=
  if n ≤ 0 then none else some ((draw : Int) % n)

/-- Indexing of a slice by an `int`: a panic (`none`) when the index is negative or not
below the length. -/
def index (xs : List GoString) (i : Int) : Option GoString :=
  if i < 0 then none else xs[i.toNat]?

/-- The slice `systemErrors` (lines 82 to 88). -/
def systemErrors : List GoString :=
  [ ascii "database connection timeout",
    ascii "memory usage high",
    ascii "disk space low",
    ascii "network latency spike",
    ascii "cache miss rate elevated" ]

/-- What one iteration of the loop takes from outside the program: the raw numbers of
its first and second call of `rand.Intn`, and the nanoseconds that pass between the two
readings of the clock in `time.Since(time.Now().Add(...))`. -/
structure TickEnv where
  draw1 : Nat
  draw2 : Nat
  elapsed : Nat

/-- The body of the loop for one tick of the ticker (lines 93 to 111). The state is
`requestCount`; the result is `none` when the iteration panics. `durationString` is
`time.Duration.String` of the standard library, applied by `%s` to the uptime. The
uptime is `time.Since(time.Now().Add(d))` with `d` the negated duration of line 99: the
time between the two readings of the clock, minus `d`.
Go's `%` truncates toward zero (`Int.tmod`), and a `switch` without a matching case
does nothing. -/
def tickBody (durationString : Int → GoString) (env : TickEnv) (requestCount : Int)
    (log : Log) : Option (Int × Log) :=
  let requestCount := wrapInt64 (requestCount + 1)
  let m := Int.tmod requestCount 4
  if m = 0 then do
    let d := wrapInt64 (wrapInt64 (-(wrapInt64 (requestCount * 30))) * Second)
    let uptime := saturateInt64 ((env.elapsed : Int) - d)
    let g ← Intn env.draw1 50
    pure (requestCount,
      logPrintf log (ascii "DEBUG: Periodic health check - uptime: %s, goroutines: %d")
        [.str (durationString uptime), .int (wrapInt64 (g + 10))])
  else if m = 1 then do
    let a ← Intn env.draw1 100
    let b ← Intn env.draw2 30
    pure (requestCount,
      logPrintf log
        (ascii "INFO: System metrics - requests processed: %d, memory usage: %d%%")
        [.int (wrapInt64 (wrapInt64 (requestCount * a) + 50)), .int (wrapInt64 (b + 60))])
  else if m = 2 then do
    let t ← Intn env.draw1 400
    pure (requestCount,
      logPrintf log
        (ascii "WARN: Performance alert - response time: %dms (threshold: 500ms)")
        [.int (wrapInt64 (t + 600))])
  else if m = 3 then do
    let i ← Intn env.draw1 (systemErrors.length : Int)
    let errorType ← index systemErrors i
    let c ← Intn env.draw2 10000
    pure (requestCount,
      logPrintf log (ascii "ERROR: System issue detected - %s (correlation_id: %d)")
        [.str errorType, .int (wrapInt64 (c + 1000))])
  else
    pure (requestCount, log)

/-- The loop of `startPeriodicLogging` over the ticks it receives, from a given value of
`requestCount` and state of the logger. -/
def runTicks (durationString : Int → GoString) :
    List TickEnv → Int × Log → Option (Int × Log)
  | [], st => some st
  | env :: rest, st =>
    match tickBody durationString env st.1 st.2 with
    | none => none
    | some st1 => runTicks durationString rest st1

/-- Translation of `startPeriodicLogging` on the ticks received so far: `requestCount`
starts at 0. -/
def startPeriodicLogging (durationString : Int → GoString) (ticks : List TickEnv)
    (log : Log) : Option (Int × Log) :=
  runTicks durationString ticks (0, log)

/-- The four kinds of line the loop writes. -/
inductive Category where
  | healthCheck
  | systemMetrics
  | performanceAlert
  | simulatedError
deriving DecidableEq, Repr

/-- The kind of a log record, read from the text it begins with. -/
def categoryOf (record : GoString) : Option Category :=
  if (ascii "DEBUG: Periodic health check").isPrefixOf record then some .healthCheck
  else if (ascii "INFO: System metrics").isPrefixOf record then some .systemMetrics
  else if (ascii "WARN: Performance alert").isPrefixOf record then some .performanceAlert
  else if (ascii "ERROR: System issue detected").isPrefixOf record then some .simulatedError
  else none

/-- The kind the switch of line 96 selects for a value of `requestCount % 4`. -/
def categoryAt (n : Nat) : Category :=
  if n % 4 = 0 then .healthCheck
  else if n % 4 = 1 then .systemMetrics
  else if n % 4 = 2 then .performanceAlert
  else .simulatedError

/-- The kind that follows a kind in the cycle. -/
def Category.next : Category → Category
  | .healthCheck => .systemMetrics
  | .systemMetrics => .performanceAlert
  | .performanceAlert => .simulatedError
  | .simulatedError => .healthCheck

/-- Five ticks used as a running example, with their raw random numbers. -/
def fiveTicks : List TickEnv :=
  [ { draw1 := 7, draw2 := 3, elapsed := 120 },
    { draw1 := 1234, draw2 := 99, elapsed := 95 },
    { draw1 := 13, draw2 := 123456, elapsed := 101 },
    { draw1 := 58, draw2 := 0, elapsed := 250 },
    { draw1 := 4, draw2 := 31, elapsed := 80 } ]

/-- A stand-in for `time.Duration.String` in examples. -/
def constantDuration : Int → GoString :=
  fun _ => ascii "2m0s"

/-! ## `main` -/

/-- The error values that reach `main`: the sentinel `http.ErrServerClosed`, the
sentinel `context.DeadlineExceeded`, and any other error (a failure of the network
layer), identified by its message. None of them wraps another error. -/
inductive GoError where
  | ErrServerClosed
  | DeadlineExceeded
  | other (msg : GoString)
deriving DecidableEq, Repr

/-- Translation of the method `Error` of these values. -/
def GoError.Error : GoError → GoString
  | .ErrServerClosed => ascii "http: Server closed"
  | .DeadlineExceeded => ascii "context deadline exceeded"
  | .other msg => msg

/-- Translation of `errors.Is` on error values without a chain: a `nil` error is no
target, any other error is the target when it is the same value. -/
def errorsIs (err : Option GoError) (target : GoError) : Bool :=
  match err with
  | none => false
  | some e => decide (e = target)

/-- How the process ended: with an exit status, or killed by a signal. -/
inductive Exit where
  | code (n : Nat)
  | signaled (sig : Nat)
deriving DecidableEq, Repr

/-- Translation of `log.Fatalf`: the record is written, then `os.Exit(1)`. -/
def logFatalf (log : Log) (format : GoString) (args : List Arg) : Log × Exit :=
  (logPrintf log format args, .code 1)

/-- The variable `serverPort` (line 41). -/
def serverPort : Int := 9090

/-- The field `Addr` of the server (line 43). -/
def serverAddr : GoString :=
  Sprintf (ascii ":%d") [.int serverPort]

/-- The duration given to `context.WithTimeout` (line 58), in nanoseconds. -/
def shutdownTimeout : Int :=
  10 * Second

/-- Translation of `syscall.SIGINT` (Linux). -/
def SIGINT : Nat := 2

/-- Translation of `syscall.SIGTERM` (Linux). -/
def SIGTERM : Nat := 15

/-- The signals registered by `signal.Notify` (line 55). -/
def notifySet : List Nat := [SIGINT, SIGTERM]

/-- The serving goroutine once `ListenAndServe` has returned `err` (lines 48 to 51):
the new state of the logger, and the exit of the process if the goroutine ends it.
`ListenAndServe` always returns a non-nil error. -/
def serveReturned (err : GoError) (log : Log) : Log × Option Exit :=
  if !errorsIs (some err) .ErrServerClosed then
    let (log1, ex) := logFatalf log (ascii "HTTP ListenAndServe error: %v") [.str err.Error]
    (log1, some ex)
  else
    (logPrintln log (ascii "HTTP server stopped serving new requests."), none)

/-- The goroutine of `main` once `server.Shutdown` has returned `err` (lines 62 to 66):
the new state of the logger and the exit of the process. -/
def shutdownReturned (err : Option GoError) (log : Log) : Log × Exit :=
  match err with
  | some e => logFatalf log (ascii "HTTP shutdown error: %v") [.str e.Error]
  | none => (logPrintln log (ascii "Shutdown complete."), .code 0)

/-- Position of the goroutine of `main`: before line 36, before line 54, blocked on the
channel at line 56, and inside `server.Shutdown` at line 62. -/
inductive MainPc where
  | start
  | spawned
  | waiting
  | draining
deriving DecidableEq, Repr

/-- Position of the serving goroutine (lines 46 to 52): not created yet, before line 47,
calling `ListenAndServe` with the listener not yet bound, inside `ListenAndServe` with
the listener accepting, and after the goroutine has ended. -/
inductive ServePc where
  | notStarted
  | spawned
  | listen
  | serving
  | finished
deriving DecidableEq, Repr

/-- State of the process. -/
structure Proc where
  mainPc : MainPc
  servePc : ServePc
  addr : GoString
  notified : Bool
  stopCh : List Nat
  inShutdown : Bool
  shutdownCtx : Option Int
  loggerStarted : Bool
  requestCount : Int
  inflight : List Request
  responses : List ResponseWriter
  log : Log
  exit : Option Exit

/-- The process when `main` is entered. -/
def Proc.init : Proc :=
  { mainPc := .start, servePc := .notStarted, addr := [], notified := false, stopCh := [],
    inShutdown := false, shutdownCtx := none, loggerStarted := false, requestCount := 0,
    inflight := [], responses := [], log := [], exit := none }

/-- What can happen next: a goroutine is scheduled, or something arrives from outside.
* `main`: the goroutine of `main` runs up to its next blocking point.
* `serve io`: the serving goroutine runs; `io` is the failure, if any, of the network
  operation it performs (binding the listener, accepting a connection).
* `signal sig dfl`: the operating system delivers signal number `sig`; `dfl` tells
  whether the runtime's default for this signal terminates the process.
* `shutdownReturns res`: `server.Shutdown` returns `res`.
* `tick env`: the ticker of `startPeriodicLogging` fires.
* `accept r`: a connection with request `r` for the greeting route arrives.
* `handle i`: the handler of in-flight request `i` runs. -/
inductive Event where
  | main
  | serve (io : Option GoString)
  | signal (sig : Nat) (dfl : Bool)
  | shutdownReturns (res : Option GoError)
  | tick (env : TickEnv)
  | accept (r : Request)
  | handle (i : Nat)

/-- The goroutine of `main` is scheduled. Line 56 blocks while the channel is empty. After
a signal is received the context is created, the record of line 61 is written and
`server.Shutdown` is called, which closes the listener. -/
def stepMain (p : Proc) : Proc :=
  match p.mainPc with
  | .start =>
    { p with mainPc := .spawned, servePc := .spawned, loggerStarted := true,
             addr := serverAddr }
  | .spawned => { p with mainPc := .waiting, notified := true }
  | .waiting =>
    match p.stopCh with
    | [] => p
    | _ :: rest =>
      { p with mainPc := .draining, stopCh := rest, shutdownCtx := some shutdownTimeout,
               log := logPrintln p.log (ascii "Shutting down the server..."),
               inShutdown := true }
  | .draining => p

/-- The serving goroutine leaves `ListenAndServe` with `err`. -/
def finishServe (p : Proc) (err : GoError) : Proc :=
  let (log1, ex) := serveReturned err p.log
  { p with servePc := .finished, log := log1, exit := ex }

/-- The serving goroutine is scheduled. `ListenAndServe` returns `http.ErrServerClosed`
once `Shutdown` has been called, and otherwise returns only when binding or accepting
fails. -/
def stepServe (p : Proc) (io : Option GoString) : Proc :=
  match p.servePc with
  | .notStarted => p
  | .spawned =>
    { p with servePc := .listen,
             log := logPrintf p.log (ascii "Starting HTTP Greeter on port %d\n")
               [.int serverPort] }
  | .listen =>
    if p.inShutdown then finishServe p .ErrServerClosed
    else
      match io with
      | some msg => finishServe p (.other msg)
      | none => { p with servePc := .serving }
  | .serving =>
    if p.inShutdown then finishServe p .ErrServerClosed
    else
      match io with
      | some msg => finishServe p (.other msg)
      | none => p
  | .finished => p

/-- A signal is delivered. Once `signal.Notify` has run, a registered signal is sent to
the channel without blocking (the channel holds one signal; a signal that finds it full
is dropped). Otherwise the runtime's default applies, which for `SIGINT` and `SIGTERM`
is to terminate the process. -/
def stepSignal (p : Proc) (sig : Nat) (dfl : Bool) : Proc :=
  if p.notified = true ∧ sig ∈ notifySet then
    if p.stopCh.length < 1 then { p with stopCh := p.stopCh ++ [sig] } else p
  else if sig ∈ notifySet ∨ dfl = true then { p with exit := some (.signaled sig) }
  else p

/-- `server.Shutdown` returns. -/
def stepShutdownReturns (p : Proc) (res : Option GoError) : Proc :=
  if p.mainPc = .draining then
    let (log1, ex) := shutdownReturned res p.log
    { p with log := log1, exit := some ex }
  else p

/-- The ticker fires: one iteration of the loop of `startPeriodicLogging`; a panic ends
the process with status 2. -/
def stepTick (durationString : Int → GoString) (p : Proc) (env : TickEnv) : Proc :=
  if p.loggerStarted then
    match tickBody durationString env p.requestCount p.log with
    | none => { p with exit := some (.code 2) }
    | some st => { p with requestCount := st.1, log := st.2 }
  else p

/-- A connection arrives: it is accepted only while the listener is open. -/
def stepAccept (p : Proc) (r : Request) : Proc :=
  if p.servePc = .serving ∧ p.inShutdown = false then { p with inflight := p.inflight ++ [r] }
  else p

/-- The handler of an accepted request runs and the response is sent. -/
def stepHandle (p : Proc) (i : Nat) : Proc :=
  match p.inflight[i]? with
  | none => p
  | some r =>
    let (w, log1) := serveGreet r p.log
    { p with inflight := p.inflight.eraseIdx i, responses := p.responses ++ [w], log := log1 }

/-- One step of the process. Nothing happens once the process has ended. -/
def step (durationString : Int → GoString) (p : Proc) (e : Event) : Proc :=
  if p.exit.isSome then p
  else
    match e with
    | .main => stepMain p
    | .serve io => stepServe p io
    | .signal sig dfl => stepSignal p sig dfl
    | .shutdownReturns res => stepShutdownReturns p res
    | .tick env => stepTick durationString p env
    | .accept r => stepAccept p r
    | .handle i => stepHandle p i

/-- The process after a sequence of events, from the entry of `main`. -/
def run (durationString : Int → GoString) (es : List Event) : Proc :=
  es.foldl (step durationString) Proc.init

/-- The states of the lifecycle. -/
inductive Phase where
  | idle
  | serving
  | draining
  | stopped
deriving DecidableEq, Repr

/-- The lifecycle state of a process: stopped once it has ended, draining once
`server.Shutdown` has been called, serving while the listener accepts, idle before. -/
def phase (p : Proc) : Phase :=
  if p.exit.isSome then .stopped
  else if p.mainPc = .draining then .draining
  else if p.servePc = .serving then .serving
  else .idle

/-- Position of a state in the order idle, serving, draining, stopped. -/
def Phase.rank : Phase → Nat
  | .idle => 0
  | .serving => 1
  | .draining => 2
  | .stopped => 3

/-- The record written by line 65. -/
def completionRecord : GoString :=
  ascii "Shutdown complete.\n"

/-- Among the events there is the delivery of `SIGINT` or of `SIGTERM`. -/
def TermSignalSeen (es : List Event) : Prop :=
  ∃ sig dfl, (sig = SIGINT ∨ sig = SIGTERM) ∧ Event.signal sig dfl ∈ es

/-- Invariant of the positions of the goroutines: the serving goroutine does not exist
before `main` has created it, and `server.Shutdown` has been called exactly when `main`
is inside it. -/
def Proc.Consistent (p : Proc) : Prop :=
  (p.mainPc = .start → p.servePc = .notStarted) ∧
  (p.inShutdown = true ↔ p.mainPc = .draining)

/-- Invariant of the process after the events `es`: a signal waits in the channel, or
`main` has gone past line 56, only if a termination signal was delivered; the context
given to `Shutdown` has the timeout of line 58; the server listens on the address of
line 43. -/
def Proc.Caused (es : List Event) (p : Proc) : Prop :=
  (p.stopCh ≠ [] → TermSignalSeen es) ∧
  (p.mainPc = .draining → TermSignalSeen es ∧ p.shutdownCtx = some shutdownTimeout) ∧
  (p.mainPc ≠ .start → p.addr = serverAddr)

/-- Invariant of the logger: the record of line 65 has been written exactly when the
process has ended with status 0. -/
def Proc.LogInv (p : Proc) : Prop :=
  completionRecord ∈ p.log ↔ p.exit = some (.code 0)

/-- A run in which the listener is bound and then `SIGTERM` arrives. -/
def sigtermRun : List Event :=
  [.main, .serve none, .serve none, .main, .signal SIGTERM false]

/-! ## Theorems about `greet` -/

theorem doPrintf_hello (name : GoString) :
    Sprintf (ascii "Hello, %s!\n") [.str name] = ascii "Hello, " ++ name ++ ascii "!\n" := by
  rfl

theorem doPrintf_greetLog (name addr : GoString) :
    Sprintf (ascii "INFO: Greeting request received for name: %s from %s")
        [.str name, .str addr]
      = ascii "INFO: Greeting request received for name: " ++ name ++ ascii " from " ++ addr := by
  have h : Sprintf (ascii "INFO: Greeting request received for name: %s from %s")
        [.str name, .str addr]
      = ascii "INFO: Greeting request received for name: " ++ (name ++ (ascii " from " ++ (addr ++ []))) :=
    rfl
  rw [h, List.append_nil, List.append_assoc, List.append_assoc]

theorem greet_eq (w : ResponseWriter) (r : Request) (log : Log) :
    greet w r log =
      (w.Write (ascii "Hello, " ++
          (if r.URL.Query.Get (ascii "name") = [] then ascii "Stranger"
            else r.URL.Query.Get (ascii "name")) ++ ascii "!\n"),
       logOutput log (ascii "INFO: Greeting request received for name: " ++
          (if r.URL.Query.Get (ascii "name") = [] then ascii "Stranger"
            else r.URL.Query.Get (ascii "name")) ++ ascii " from " ++ r.RemoteAddr)) := by
  simp only [greet, logPrintf, Fprintf, doPrintf_hello, doPrintf_greetLog]

theorem write_fresh (p : GoString) :
    ResponseWriter.fresh.Write p = { wroteHeader := true, status := 200, body := p } := by
  simp [ResponseWriter.Write, ResponseWriter.fresh, ResponseWriter.WriteHeader, StatusOK]

theorem write_body (w : ResponseWriter) (p : GoString) : (w.Write p).body = w.body ++ p := by
  unfold ResponseWriter.Write ResponseWriter.WriteHeader
  cases h : w.wroteHeader <;> simp [h]

theorem serveGreet_eq (r : Request) (log : Log) :
    serveGreet r log =
      ({ wroteHeader := true, status := 200,
         body := ascii "Hello, " ++
          (if r.URL.Query.Get (ascii "name") = [] then ascii "Stranger"
            else r.URL.Query.Get (ascii "name")) ++ ascii "!\n" },
       logOutput log (ascii "INFO: Greeting request received for name: " ++
          (if r.URL.Query.Get (ascii "name") = [] then ascii "Stranger"
            else r.URL.Query.Get (ascii "name")) ++ ascii " from " ++ r.RemoteAddr)) := by
  simp only [serveGreet, greet_eq, write_fresh]
  simp [ResponseWriter.finish]

theorem get_of_lookup_none (v : Values) (key : GoString) (h : v.lookup key = none) :
    v.Get key = [] := by
  simp [Values.Get, h]

/-- C1: for every non-empty value `v` of the query parameter `name`, `greet` writes
exactly the bytes `Hello, ` then `v` then `!` and one newline: they are appended to
whatever the writer holds, and on the writer of a new response they are the whole
body. -/
theorem greet_body_of_name (w : ResponseWriter) (r : Request) (log : Log) (v : GoString)
    (hv : v ≠ []) (hname : r.URL.Query.Get (ascii "name") = v) :
    (greet w r log).1.body = w.body ++ (ascii "Hello, " ++ v ++ ascii "!\n") ∧
    (serveGreet r log).1.body = ascii "Hello, " ++ v ++ ascii "!\n" := by
  constructor
  · rw [greet_eq, hname, if_neg hv]
    exact write_body _ _
  · rw [serveGreet_eq, hname, if_neg hv]

/-- Witness of C1: `name=World` gives the body `Hello, World!` and a newline. -/
theorem greet_body_of_name_witness :
    ascii "World" ≠ [] ∧
    (mkRequest [(ascii "name", ascii "World")] (ascii "10.0.0.1:40000")).URL.Query.Get
        (ascii "name") = ascii "World" ∧
    (serveGreet (mkRequest [(ascii "name", ascii "World")] (ascii "10.0.0.1:40000")) []).1.body
      = ascii "Hello, World!\n" :=
  ⟨by decide, by decide,
    (greet_body_of_name ResponseWriter.fresh
      (mkRequest [(ascii "name", ascii "World")] (ascii "10.0.0.1:40000")) [] (ascii "World")
      (by decide) (by decide)).2⟩

/-- C2: when the query has no parameter `name`, or its value is the empty string, the
response is status 200 with the body `Hello, Stranger!` and a newline; the response is
the same record in both cases. -/
theorem greet_stranger (r : Request) (log : Log)
    (h : r.URL.Query.lookup (ascii "name") = none ∨ r.URL.Query.Get (ascii "name") = []) :
    (serveGreet r log).1 =
      { wroteHeader := true, status := 200, body := ascii "Hello, Stranger!\n" } := by
  have hget : r.URL.Query.Get (ascii "name") = [] := by
    rcases h with h | h
    · exact get_of_lookup_none _ _ h
    · exact h
  rw [serveGreet_eq, hget]
  rfl

/-- Witness of C2: a request without parameters and a request with `name=` get the same
response. -/
theorem greet_stranger_witness :
    (mkRequest [] (ascii "10.0.0.1:40000")).URL.Query.lookup (ascii "name") = none ∧
    (mkRequest [(ascii "name", [])] (ascii "10.0.0.2:40000")).URL.Query.Get (ascii "name")
      = [] ∧
    (serveGreet (mkRequest [] (ascii "10.0.0.1:40000")) []).1 =
      (serveGreet (mkRequest [(ascii "name", [])] (ascii "10.0.0.2:40000")) []).1 :=
  ⟨by decide, by decide,
    (greet_stranger (mkRequest [] (ascii "10.0.0.1:40000")) [] (Or.inl (by decide))).trans
      (greet_stranger (mkRequest [(ascii "name", [])] (ascii "10.0.0.2:40000")) []
        (Or.inr (by decide))).symm⟩

theorem logOutput_eq (log : Log) (s : GoString) :
    logOutput log s = log ++ [s ++ (if s.getLast? = some 10 then [] else [10])] := by
  unfold logOutput
  split <;> simp

/-- Counterexample to C3 as stated: for the empty value of `name` the body is the 17
bytes of `Hello, Stranger!` and a newline, which is not the length of the value plus 9;
the value is replaced, not copied. -/
theorem greet_empty_name_not_verbatim :
    (mkRequest [(ascii "name", [])] (ascii "10.0.0.1:40000")).URL.Query.Get (ascii "name")
      = [] ∧
    (serveGreet (mkRequest [(ascii "name", [])] (ascii "10.0.0.1:40000")) []).1.body
      = ascii "Hello, Stranger!\n" ∧
    (serveGreet (mkRequest [(ascii "name", [])] (ascii "10.0.0.1:40000")) []).1.body.length
      = 17 ∧
    (serveGreet (mkRequest [(ascii "name", [])] (ascii "10.0.0.1:40000")) []).1.body.length
      ≠ ((mkRequest [(ascii "name", [])] (ascii "10.0.0.1:40000")).URL.Query.Get
          (ascii "name")).length + 9 := by
  decide

/-- C3, amended: `greet` has no error path. For every request the status is 200 and the
body is `Hello, ` then the name then `!` and a newline, where the name is the value of
`name` copied byte for byte when it is not empty (whatever bytes it holds, format verbs
and newlines included) and `Stranger` when it is empty; the body is 9 bytes longer than
the value in the first case and 17 bytes long in the second. -/
theorem greet_always_ok (r : Request) (log : Log) :
    (serveGreet r log).1.status = 200 ∧
    (serveGreet r log).1.body =
      ascii "Hello, " ++
        (if r.URL.Query.Get (ascii "name") = [] then ascii "Stranger"
          else r.URL.Query.Get (ascii "name")) ++ ascii "!\n" ∧
    (serveGreet r log).1.body.length =
      if r.URL.Query.Get (ascii "name") = [] then 17
        else (r.URL.Query.Get (ascii "name")).length + 9 := by
  rw [serveGreet_eq]
  refine ⟨rfl, rfl, ?_⟩
  have h1 : (ascii "Hello, ").length = 7 := rfl
  have h2 : (ascii "!\n").length = 2 := rfl
  have h3 : (ascii "Stranger").length = 8 := rfl
  by_cases hv : r.URL.Query.Get (ascii "name") = []
  · simp only [if_pos hv, List.length_append, h1, h2, h3]
  · simp only [if_neg hv, List.length_append, h1, h2]
    omega

theorem getLast?_ne_of_not_mem (l : GoString) (h : (10 : UInt8) ∉ l) :
    l.getLast? ≠ some 10 := by
  intro hl
  obtain ⟨ys, rfl⟩ := List.getLast?_eq_some_iff.mp hl
  exact h (by simp)

theorem getLast?_append_ne_nil (l m : GoString) (hm : m ≠ []) :
    (l ++ m).getLast? = m.getLast? := by
  rw [List.getLast?_append]
  cases m with
  | nil => exact absurd rfl hm
  | cons a t =>
    obtain ⟨x, hx⟩ : ∃ x, (a :: t).getLast? = some x :=
      ⟨_, List.getLast?_eq_getLast _ (by simp)⟩
    rw [hx]
    rfl

theorem greet_lineCount (name addr : GoString) :
    lineCount
        (ascii "INFO: Greeting request received for name: " ++ name ++ ascii " from " ++ addr ++
          (if (ascii "INFO: Greeting request received for name: " ++ name ++ ascii " from "
                ++ addr).getLast? = some 10 then [] else [10]))
      = (if 10 ∈ name ∨ 10 ∈ addr then
          name.count 10 + addr.count 10 +
            (if (name ++ ascii " from " ++ addr).getLast? = some 10 then 0 else 1)
         else 1) := by
  have hP : (ascii "INFO: Greeting request received for name: ").count 10 = 0 := by decide
  have hF : (ascii " from ").count 10 = 0 := by decide
  have hne : name ++ ascii " from " ++ addr ≠ [] := by
    intro h
    have := congrArg List.length h
    simp only [List.length_append, List.length_nil] at this
    have h5 : (ascii " from ").length = 6 := by decide
    omega
  have hlast : (ascii "INFO: Greeting request received for name: " ++ name ++ ascii " from "
        ++ addr).getLast? = (name ++ ascii " from " ++ addr).getLast? := by
    rw [List.append_assoc, List.append_assoc, ← List.append_assoc name]
    exact getLast?_append_ne_nil _ _ hne
  have hcount : lineCount
        (ascii "INFO: Greeting request received for name: " ++ name ++ ascii " from " ++ addr ++
          (if (ascii "INFO: Greeting request received for name: " ++ name ++ ascii " from "
                ++ addr).getLast? = some 10 then [] else [10]))
      = name.count 10 + addr.count 10 +
          (if (name ++ ascii " from " ++ addr).getLast? = some 10 then 0 else 1) := by
    rw [hlast]
    unfold lineCount
    simp only [List.count_append, hP, hF]
    split <;> simp
  rw [hcount]
  by_cases h : 10 ∈ name ∨ 10 ∈ addr
  · rw [if_pos h]
  · rw [if_neg h]
    have hn : (10 : UInt8) ∉ name := fun hh => h (Or.inl hh)
    have ha : (10 : UInt8) ∉ addr := fun hh => h (Or.inr hh)
    have hmem : (10 : UInt8) ∉ name ++ ascii " from " ++ addr := by
      simp only [List.mem_append, not_or]
      exact ⟨⟨hn, by decide⟩, ha⟩
    rw [if_neg (getLast?_ne_of_not_mem _ hmem), List.count_eq_zero.mpr hn,
      List.count_eq_zero.mpr ha]

/-- Counterexample to C5 as stated: the name `a`, newline, `10.0.0.1:40000` sent from
the address `10.0.0.1:40000` is logged in one record that spans two lines, and the
response body contains the remote address. -/
theorem greet_log_two_lines :
    ∃ record,
      (greet ResponseWriter.fresh
        (mkRequest [(ascii "name", ascii "a\n10.0.0.1:40000")] (ascii "10.0.0.1:40000"))
        []).2 = [record] ∧
      lineCount record = 2 ∧
      ascii "10.0.0.1:40000" <:+:
        (greet ResponseWriter.fresh
          (mkRequest [(ascii "name", ascii "a\n10.0.0.1:40000")] (ascii "10.0.0.1:40000"))
          []).1.body :=
  ⟨ascii "INFO: Greeting request received for name: a\n10.0.0.1:40000 from 10.0.0.1:40000\n",
    by decide, by decide, by decide⟩

/-- C5, amended: each call of `greet` writes exactly one record to the logger. The record
starts with `INFO: `, contains the resolved name (the one put in the body) and the
remote address, and ends with a newline; it holds as many further newlines as the name
and the address hold, so it is a single line when they hold none. The remote address is
used for the record only: the writer is left in the same state whatever the address. -/
theorem greet_log_record (w : ResponseWriter) (r : Request) (log : Log) :
    ∃ name record,
      name = (if r.URL.Query.Get (ascii "name") = [] then ascii "Stranger"
          else r.URL.Query.Get (ascii "name")) ∧
      (greet w r log).2 = log ++ [record] ∧
      (greet w r log).1.body = w.body ++ (ascii "Hello, " ++ name ++ ascii "!\n") ∧
      ascii "INFO: " <+: record ∧
      name <:+: record ∧
      r.RemoteAddr <:+: record ∧
      record.getLast? = some 10 ∧
      lineCount record =
        (if 10 ∈ name ∨ 10 ∈ r.RemoteAddr then
          name.count 10 + r.RemoteAddr.count 10 +
            (if (name ++ ascii " from " ++ r.RemoteAddr).getLast? = some 10 then 0 else 1)
         else 1) ∧
      ∀ addr : GoString, (greet w { r with RemoteAddr := addr } log).1 = (greet w r log).1 := by
  obtain ⟨name, hname⟩ : ∃ n, n = (if r.URL.Query.Get (ascii "name") = [] then ascii "Stranger"
      else r.URL.Query.Get (ascii "name")) := ⟨_, rfl⟩
  refine ⟨name, ?_⟩
  rw [greet_eq, logOutput_eq, ← hname]
  have hP : ascii "INFO: " <+: ascii "INFO: Greeting request received for name: " := by decide
  refine ⟨_, rfl, rfl, write_body _ _, ?_, ?_, ?_, ?_, greet_lineCount _ _, ?_⟩
  · exact hP.trans ((List.prefix_append _ _).trans ((List.prefix_append _ _).trans
      ((List.prefix_append _ _).trans (List.prefix_append _ _))))
  · exact (List.infix_append _ name _).trans
      ((List.prefix_append _ _).isInfix.trans (List.prefix_append _ _).isInfix)
  · exact List.infix_append _ r.RemoteAddr _
  · split
    · rename_i h
      rw [List.append_nil]
      exact h
    · exact List.getLast?_concat _
  · intro addr
    rw [greet_eq]
    subst hname
    rfl

/-! ## Theorems about concurrent requests -/

theorem task_start_inv (r : Request) : (Task.start r).Inv r := by
  simp [Task.Inv, Task.start]

theorem task_step_inv (r : Request) (t : Task) (log : Log) (h : t.Inv r) :
    (t.step log).1.Inv r ∧ (t.step log).1.pc.rank = min 3 (t.pc.rank + 1) := by
  obtain ⟨hr, h0, h1, h2⟩ := h
  cases hpc : t.pc
  · refine ⟨?_, by simp [Task.step, hpc, HandlerPc.rank]⟩
    simp only [Task.Inv, Task.step, hpc]
    refine ⟨hr, by simp, fun _ => ⟨h0 hpc, ?_⟩, by simp⟩
    simp only [resolvedName, hr]
  · refine ⟨?_, by simp [Task.step, hpc, HandlerPc.rank]⟩
    simp only [Task.Inv, Task.step, hpc]
    exact ⟨hr, by simp, fun _ => h1 (Or.inl hpc), by simp⟩
  · refine ⟨?_, by simp [Task.step, hpc, HandlerPc.rank]⟩
    simp only [Task.Inv, Task.step, hpc]
    refine ⟨hr, by simp, by simp, fun _ => ?_⟩
    rw [(h1 (Or.inr hpc)).1, (h1 (Or.inr hpc)).2, Fprintf, doPrintf_hello]
  · refine ⟨?_, by simp [Task.step, hpc, HandlerPc.rank]⟩
    simp only [Task.step, hpc]
    exact ⟨hr, h0, h1, h2⟩

theorem task_step_log (t : Task) (log : Log) : log <+: (t.step log).2 := by
  unfold Task.step
  split
  · exact List.prefix_refl _
  · simp only [logPrintf, logOutput]
    exact List.prefix_append _ _
  · exact List.prefix_refl _
  · exact List.prefix_refl _

theorem pool_step_log (p : Pool) (j : Nat) : p.log <+: (p.step j).log := by
  unfold Pool.step
  split
  · exact List.prefix_refl _
  · exact task_step_log _ _

theorem pool_run_log (sched : List Nat) (p : Pool) : p.log <+: (p.run sched).log := by
  induction sched generalizing p with
  | nil => exact List.prefix_refl _
  | cons j rest ih =>
    have h : p.run (j :: rest) = (p.step j).run rest := rfl
    rw [h]
    exact (pool_step_log p j).trans (ih _)

theorem pool_step_task (r : Request) (p : Pool) (i j : Nat) (t : Task)
    (ht : p.tasks[i]? = some t) (hinv : t.Inv r) :
    ∃ t1, (p.step j).tasks[i]? = some t1 ∧ t1.Inv r ∧
      t1.pc.rank = min 3 (t.pc.rank + (if j = i then 1 else 0)) := by
  unfold Pool.step
  by_cases hji : j = i
  · subst hji
    rw [ht]
    have hlt : j < p.tasks.length := by
      rcases Nat.lt_or_ge j p.tasks.length with h | h
      · exact h
      · rw [List.getElem?_eq_none h] at ht
        exact absurd ht (by simp)
    refine ⟨(t.step p.log).1, ?_, (task_step_inv r t p.log hinv).1, ?_⟩
    · simp [List.getElem?_set, hlt]
    · rw [if_pos rfl]
      exact (task_step_inv r t p.log hinv).2
  · have hrank : t.pc.rank = min 3 (t.pc.rank + 0) := by
      cases t.pc <;> simp [HandlerPc.rank]
    rw [if_neg hji]
    cases hj : p.tasks[j]? with
    | none => exact ⟨t, ht, hinv, hrank⟩
    | some tj =>
      refine ⟨t, ?_, hinv, hrank⟩
      simp only [List.getElem?_set_ne hji, ht]

theorem pool_run_task (r : Request) (i : Nat) (sched : List Nat) (p : Pool) (t : Task)
    (ht : p.tasks[i]? = some t) (hinv : t.Inv r) :
    ∃ t1, (p.run sched).tasks[i]? = some t1 ∧ t1.Inv r ∧
      t1.pc.rank = min 3 (t.pc.rank + sched.count i) := by
  induction sched generalizing p t with
  | nil =>
    refine ⟨t, ht, hinv, ?_⟩
    cases t.pc <;> simp [HandlerPc.rank]
  | cons j rest ih =>
    have h : p.run (j :: rest) = (p.step j).run rest := rfl
    obtain ⟨t1, ht1, hinv1, hrank1⟩ := pool_step_task r p i j t ht hinv
    obtain ⟨t2, ht2, hinv2, hrank2⟩ := ih (p.step j) t1 ht1 hinv1
    refine ⟨t2, by rw [h]; exact ht2, hinv2, ?_⟩
    rw [hrank2, hrank1, List.count_cons]
    by_cases hji : j = i
    · simp only [hji, if_true, beq_self_eq_true]
      omega
    · have : (j == i) = false := by simpa using hji
      rw [this, if_neg hji, if_neg (by simp)]
      omega

theorem rank_eq_three (pc : HandlerPc) (h : pc.rank = 3) : pc = .returned := by
  cases pc <;> simp [HandlerPc.rank] at h ⊢

theorem serveGreet_response (r : Request) (log : Log) :
    (serveGreet r log).1 =
      { wroteHeader := true, status := 200,
        body := ascii "Hello, " ++ resolvedName r ++ ascii "!\n" } := by
  rw [serveGreet_eq, resolvedName]

theorem response_of_returned (r : Request) (t : Task) (hinv : t.Inv r)
    (hpc : t.pc = .returned) :
    t.response =
      { wroteHeader := true, status := 200,
        body := ascii "Hello, " ++ resolvedName r ++ ascii "!\n" } := by
  rw [Task.response, hinv.2.2.2 hpc, write_fresh]
  simp [ResponseWriter.finish]

/-- Counterexample to C4 as stated: `greet` does write state shared between requests.
Line 73 writes the process-wide logger: handling one request leaves a record in it, and
the same two requests handled in the two possible orders leave different logs. -/
theorem greet_writes_shared_logger :
    (greet ResponseWriter.fresh
        (mkRequest [(ascii "name", ascii "Alice")] (ascii "10.0.0.1:40000")) []).2
      = [ascii "INFO: Greeting request received for name: Alice from 10.0.0.1:40000\n"] ∧
    ((Pool.start aliceAndBob []).run [0, 0, 0, 1, 1, 1]).log
      = [ascii "INFO: Greeting request received for name: Alice from 10.0.0.1:40000\n",
         ascii "INFO: Greeting request received for name: Bob from 10.0.0.2:40000\n"] ∧
    ((Pool.start aliceAndBob []).run [1, 1, 1, 0, 0, 0]).log
      = [ascii "INFO: Greeting request received for name: Bob from 10.0.0.2:40000\n",
         ascii "INFO: Greeting request received for name: Alice from 10.0.0.1:40000\n"] ∧
    ((Pool.start aliceAndBob []).run [0, 0, 0, 1, 1, 1]).log
      ≠ ((Pool.start aliceAndBob []).run [1, 1, 1, 0, 0, 0]).log := by
  decide

/-- C4, amended: the handlers have one object in common, the standard logger, which
`greet` writes and never reads. Take any list of requests accepted together, with the
logger in any state, and any schedule that interleaves the statements of their
handlers. A handler that is given its three steps has returned, and its response is
status 200 with the greeting of its own request's name: the same response that any
request with the same value of `name` gets when it is handled alone, whatever its
remote address and the state of the logger, and a response that no request with another
name gets. The records written to the logger before are kept: the handlers only
append to it. -/
theorem greet_no_cross_talk (reqs : List Request) (log : Log) (sched : List Nat) (i : Nat)
    (r : Request) (hr : reqs[i]? = some r) (hsched : 3 ≤ sched.count i) :
    ∃ t, ((Pool.start reqs log).run sched).tasks[i]? = some t ∧
      t.pc = .returned ∧
      t.response =
        { wroteHeader := true, status := 200,
          body := ascii "Hello, " ++
            (if r.URL.Query.Get (ascii "name") = [] then ascii "Stranger"
              else r.URL.Query.Get (ascii "name")) ++ ascii "!\n" } ∧
      (∀ (r2 : Request) (log2 : Log),
        r2.URL.Query.Get (ascii "name") = r.URL.Query.Get (ascii "name") →
          (serveGreet r2 log2).1 = t.response) ∧
      (∀ (r2 : Request) (log2 : Log),
        (serveGreet r2 log2).1 = t.response → resolvedName r2 = resolvedName r) ∧
      log <+: ((Pool.start reqs log).run sched).log := by
  have hstart : (Pool.start reqs log).tasks[i]? = some (Task.start r) := by
    simp [Pool.start, List.getElem?_map, hr]
  obtain ⟨t, ht, hinv, hrank⟩ :=
    pool_run_task r i sched (Pool.start reqs log) (Task.start r) hstart (task_start_inv r)
  have hpc : t.pc = .returned := by
    apply rank_eq_three
    rw [hrank]
    simp only [Task.start, HandlerPc.rank]
    omega
  have hresp := response_of_returned r t hinv hpc
  refine ⟨t, ht, hpc, ?_, ?_, ?_, pool_run_log sched (Pool.start reqs log)⟩
  · rw [hresp, resolvedName]
  · intro r2 log2 h
    rw [hresp, serveGreet_response, resolvedName, resolvedName, h]
  · intro r2 log2 h
    rw [hresp, serveGreet_response] at h
    have hb := congrArg ResponseWriter.body h
    exact List.append_cancel_left (List.append_cancel_right hb)

/-- Witness of C4: two requests, `name=Alice` and `name=Bob`, whose handlers are
interleaved statement by statement; the response to the second one greets Bob. -/
theorem greet_no_cross_talk_witness :
    aliceAndBob[1]? =
      some (mkRequest [(ascii "name", ascii "Bob")] (ascii "10.0.0.2:40000")) ∧
    3 ≤ [0, 1, 1, 0, 1, 0].count 1 ∧
    ∃ t, ((Pool.start aliceAndBob []).run [0, 1, 1, 0, 1, 0]).tasks[1]? = some t ∧
      t.response.body = ascii "Hello, Bob!\n" := by
  refine ⟨by decide, by decide, ?_⟩
  obtain ⟨t, ht, _, hresp, _⟩ :=
    greet_no_cross_talk aliceAndBob [] [0, 1, 1, 0, 1, 0] 1
      (mkRequest [(ascii "name", ascii "Bob")] (ascii "10.0.0.2:40000"))
      (by decide) (by decide)
  exact ⟨t, ht, by rw [hresp]; decide⟩

/-! ## Theorems about `startPeriodicLogging` -/

theorem sprintf_debug (u : GoString) (g : Int) :
    Sprintf (ascii "DEBUG: Periodic health check - uptime: %s, goroutines: %d")
        [.str u, .int g]
      = ascii "DEBUG: Periodic health check" ++
          (ascii " - uptime: " ++ (u ++ (ascii ", goroutines: " ++ (formatInt g ++ [])))) :=
  rfl

theorem sprintf_info (a b : Int) :
    Sprintf (ascii "INFO: System metrics - requests processed: %d, memory usage: %d%%")
        [.int a, .int b]
      = ascii "INFO: System metrics" ++
          (ascii " - requests processed: " ++
            (formatInt a ++ (ascii ", memory usage: " ++ (formatInt b ++ ascii "%")))) :=
  rfl

theorem sprintf_warn (t : Int) :
    Sprintf (ascii "WARN: Performance alert - response time: %dms (threshold: 500ms)")
        [.int t]
      = ascii "WARN: Performance alert" ++
          (ascii " - response time: " ++ (formatInt t ++ ascii "ms (threshold: 500ms)")) :=
  rfl

theorem sprintf_error (e : GoString) (c : Int) :
    Sprintf (ascii "ERROR: System issue detected - %s (correlation_id: %d)")
        [.str e, .int c]
      = ascii "ERROR: System issue detected" ++
          (ascii " - " ++ (e ++ (ascii " (correlation_id: " ++ (formatInt c ++ ascii ")")))) :=
  rfl

theorem isPrefixOf_append_self (A x : GoString) : A.isPrefixOf (A ++ x) = true := by
  induction A with
  | nil => cases x <;> rfl
  | cons a A ih => simp [List.isPrefixOf, ih]

theorem isPrefixOf_append_of_head_ne (A B x : GoString) (a b : UInt8)
    (hA : A.head? = some a) (hB : B.head? = some b) (hab : a ≠ b) :
    A.isPrefixOf (B ++ x) = false := by
  cases A with
  | nil => simp at hA
  | cons a1 A =>
    cases B with
    | nil => simp at hB
    | cons b1 B =>
      simp only [List.head?_cons, Option.some.injEq] at hA hB
      subst hA hB
      simp [List.isPrefixOf, hab]

theorem categoryOf_debug (x : GoString) :
    categoryOf (ascii "DEBUG: Periodic health check" ++ x) = some .healthCheck := by
  simp [categoryOf, isPrefixOf_append_self]

theorem categoryOf_info (x : GoString) :
    categoryOf (ascii "INFO: System metrics" ++ x) = some .systemMetrics := by
  have h1 := isPrefixOf_append_of_head_ne (ascii "DEBUG: Periodic health check")
    (ascii "INFO: System metrics") x 68 73 (by decide) (by decide) (by decide)
  simp [categoryOf, isPrefixOf_append_self, h1]

theorem categoryOf_warn (x : GoString) :
    categoryOf (ascii "WARN: Performance alert" ++ x) = some .performanceAlert := by
  have h1 := isPrefixOf_append_of_head_ne (ascii "DEBUG: Periodic health check")
    (ascii "WARN: Performance alert") x 68 87 (by decide) (by decide) (by decide)
  have h2 := isPrefixOf_append_of_head_ne (ascii "INFO: System metrics")
    (ascii "WARN: Performance alert") x 73 87 (by decide) (by decide) (by decide)
  simp [categoryOf, isPrefixOf_append_self, h1, h2]

theorem categoryOf_error (x : GoString) :
    categoryOf (ascii "ERROR: System issue detected" ++ x) = some .simulatedError := by
  have h1 := isPrefixOf_append_of_head_ne (ascii "DEBUG: Periodic health check")
    (ascii "ERROR: System issue detected") x 68 69 (by decide) (by decide) (by decide)
  have h2 := isPrefixOf_append_of_head_ne (ascii "INFO: System metrics")
    (ascii "ERROR: System issue detected") x 73 69 (by decide) (by decide) (by decide)
  have h3 := isPrefixOf_append_of_head_ne (ascii "WARN: Performance alert")
    (ascii "ERROR: System issue detected") x 87 69 (by decide) (by decide) (by decide)
  simp [categoryOf, isPrefixOf_append_self, h1, h2, h3]

theorem wrapInt64_of_range (x : Int) (h1 : -(2 ^ 63) ≤ x) (h2 : x < 2 ^ 63) :
    wrapInt64 x = x := by
  unfold wrapInt64
  norm_num at h1 h2 ⊢
  omega

theorem natDigits_mem (fuel n : Nat) (acc : GoString) (b : UInt8)
    (hb : b ∈ natDigits fuel n acc) : b ∈ acc ∨ b ≠ 10 := by
  induction fuel generalizing n acc with
  | zero => exact Or.inl hb
  | succ fuel ih =>
    have hd : UInt8.ofNat (48 + n % 10) ≠ 10 := by
      intro h
      have := congrArg UInt8.toNat h
      simp [UInt8.toNat, UInt8.ofNat, Fin.ofNat] at this
      omega
    simp only [natDigits] at hb
    split at hb
    · rcases List.mem_cons.mp hb with h | h
      · exact Or.inr (h ▸ hd)
      · exact Or.inl h
    · rcases ih _ _ hb with h | h
      · rcases List.mem_cons.mp h with h | h
        · exact Or.inr (h ▸ hd)
        · exact Or.inl h
      · exact Or.inr h

theorem formatInt_no_newline (n : Int) : (10 : UInt8) ∉ formatInt n := by
  have hnat : ∀ k : Nat, (10 : UInt8) ∉ formatNat k := by
    intro k h
    rcases natDigits_mem _ _ _ _ h with h | h
    · exact absurd h (by simp)
    · exact h rfl
  unfold formatInt
  split
  · intro h
    rcases List.mem_cons.mp h with h | h
    · exact absurd h (by decide)
    · exact hnat _ h
  · exact hnat _

theorem logOutput_of_no_newline (log : Log) (msg : GoString) (h : (10 : UInt8) ∉ msg) :
    logOutput log msg = log ++ [msg ++ [10]] ∧ lineCount (msg ++ [10]) = 1 := by
  constructor
  · unfold logOutput
    rw [if_neg (getLast?_ne_of_not_mem msg h)]
  · unfold lineCount
    rw [List.count_append, List.count_eq_zero.mpr h]
    rfl

theorem intn_pos (draw : Nat) (n : Int) (h : 0 < n) : Intn draw n = some ((draw : Int) % n) := by
  unfold Intn
  rw [if_neg (by omega)]

theorem systemErrors_no_newline (e : GoString) (he : e ∈ systemErrors) : (10 : UInt8) ∉ e := by
  simp only [systemErrors, List.mem_cons, List.mem_singleton, List.not_mem_nil, or_false] at he
  rcases he with h | h | h | h | h <;> subst h <;> decide

theorem index_systemErrors (draw : Nat) :
    ∃ e, e ∈ systemErrors ∧
      index systemErrors ((draw : Int) % ((systemErrors.length : Nat) : Int)) = some e := by
  have hlen : systemErrors.length = 5 := rfl
  have hlt : draw % 5 < systemErrors.length := by rw [hlen]; omega
  refine ⟨systemErrors[draw % 5], List.getElem_mem hlt, ?_⟩
  have hcast : (draw : Int) % ((systemErrors.length : Nat) : Int) = ((draw % 5 : Nat) : Int) := by
    rw [hlen]
    omega
  rw [hcast, index, if_neg (by omega), Int.toNat_ofNat, List.getElem?_eq_getElem hlt]

theorem tick_counter (c : Nat) (h : c + 1 < 2 ^ 63) :
    wrapInt64 ((c : Int) + 1) = ((c + 1 : Nat) : Int) ∧
    Int.tmod ((c + 1 : Nat) : Int) 4 = (((c + 1) % 4 : Nat) : Int) := by
  constructor
  · rw [wrapInt64_of_range]
    · push_cast
      rfl
    · norm_num
      omega
    · norm_num at h ⊢
      omega
  · exact (Int.ofNat_tmod _ 4).symm

theorem tick_debug (durationString : Int → GoString) (env : TickEnv) (c : Nat) (log : Log)
    (h : c + 1 < 2 ^ 63) (hk : (c + 1) % 4 = 0) :
    ∃ u g, tickBody durationString env c log =
      some (((c + 1 : Nat) : Int),
        logPrintf log (ascii "DEBUG: Periodic health check - uptime: %s, goroutines: %d")
          [.str (durationString u), .int g]) := by
  obtain ⟨hw, hm⟩ := tick_counter c h
  unfold tickBody
  simp only [hw, hm, hk]
  rw [if_pos (by rfl), intn_pos _ _ (by norm_num)]
  exact ⟨_, _, rfl⟩

theorem tick_info (durationString : Int → GoString) (env : TickEnv) (c : Nat) (log : Log)
    (h : c + 1 < 2 ^ 63) (hk : (c + 1) % 4 = 1) :
    ∃ a b, tickBody durationString env c log =
      some (((c + 1 : Nat) : Int),
        logPrintf log
          (ascii "INFO: System metrics - requests processed: %d, memory usage: %d%%")
          [.int a, .int b]) := by
  obtain ⟨hw, hm⟩ := tick_counter c h
  unfold tickBody
  simp only [hw, hm, hk]
  rw [if_neg (by decide), if_pos (by rfl), intn_pos _ _ (by norm_num),
    intn_pos _ _ (by norm_num)]
  exact ⟨_, _, rfl⟩

theorem tick_warn (durationString : Int → GoString) (env : TickEnv) (c : Nat) (log : Log)
    (h : c + 1 < 2 ^ 63) (hk : (c + 1) % 4 = 2) :
    ∃ t, tickBody durationString env c log =
      some (((c + 1 : Nat) : Int),
        logPrintf log
          (ascii "WARN: Performance alert - response time: %dms (threshold: 500ms)")
          [.int t]) := by
  obtain ⟨hw, hm⟩ := tick_counter c h
  unfold tickBody
  simp only [hw, hm, hk]
  rw [if_neg (by decide), if_neg (by decide), if_pos (by rfl), intn_pos _ _ (by norm_num)]
  exact ⟨_, rfl⟩

theorem tick_error (durationString : Int → GoString) (env : TickEnv) (c : Nat) (log : Log)
    (h : c + 1 < 2 ^ 63) (hk : (c + 1) % 4 = 3) :
    ∃ e id, e ∈ systemErrors ∧ 1000 ≤ id ∧ id ≤ 10999 ∧
      tickBody durationString env c log =
        some (((c + 1 : Nat) : Int),
          logPrintf log (ascii "ERROR: System issue detected - %s (correlation_id: %d)")
            [.str e, .int id]) := by
  obtain ⟨hw, hm⟩ := tick_counter c h
  obtain ⟨e, he, hidx⟩ := index_systemErrors env.draw1
  have hid : wrapInt64 ((env.draw2 : Int) % 10000 + 1000) = (env.draw2 : Int) % 10000 + 1000 := by
    apply wrapInt64_of_range
    · norm_num
      omega
    · norm_num
      omega
  refine ⟨e, (env.draw2 : Int) % 10000 + 1000, he, by omega, by omega, ?_⟩
  unfold tickBody
  simp only [hw, hm, hk]
  rw [if_neg (by decide), if_neg (by decide), if_neg (by decide), if_pos (by rfl),
    intn_pos _ _ (by decide), intn_pos _ _ (by norm_num)]
  simp only [Option.bind_eq_bind, Option.some_bind, hidx, hid]
  rfl

theorem tick_spec (durationString : Int → GoString) (env : TickEnv) (c : Nat) (log : Log)
    (h : c + 1 < 2 ^ 63) (hdur : ∀ d, (10 : UInt8) ∉ durationString d) :
    ∃ record, tickBody durationString env c log = some (((c + 1 : Nat) : Int), log ++ [record]) ∧
      categoryOf record = some (categoryAt (c + 1)) ∧ lineCount record = 1 := by
  have hlt : (c + 1) % 4 < 4 := Nat.mod_lt _ (by norm_num)
  have hcases : (c + 1) % 4 = 0 ∨ (c + 1) % 4 = 1 ∨ (c + 1) % 4 = 2 ∨ (c + 1) % 4 = 3 := by
    omega
  rcases hcases with hk | hk | hk | hk
  · obtain ⟨u, g, ht⟩ := tick_debug durationString env c log h hk
    have hmsg : (10 : UInt8) ∉
        Sprintf (ascii "DEBUG: Periodic health check - uptime: %s, goroutines: %d")
          [.str (durationString u), .int g] := by
      rw [sprintf_debug]
      simp only [List.mem_append, not_or, List.not_mem_nil, not_false_eq_true, and_true]
      exact ⟨by decide, by decide, hdur u, by decide, formatInt_no_newline g⟩
    obtain ⟨hout, hline⟩ := logOutput_of_no_newline log _ hmsg
    refine ⟨_, by rw [ht, logPrintf, hout], ?_, hline⟩
    rw [sprintf_debug, List.append_assoc, categoryOf_debug]
    simp [categoryAt, hk]
  · obtain ⟨a, b, ht⟩ := tick_info durationString env c log h hk
    have hmsg : (10 : UInt8) ∉
        Sprintf (ascii "INFO: System metrics - requests processed: %d, memory usage: %d%%")
          [.int a, .int b] := by
      rw [sprintf_info]
      simp only [List.mem_append, not_or]
      exact ⟨by decide, by decide, formatInt_no_newline a, by decide, formatInt_no_newline b,
        by decide⟩
    obtain ⟨hout, hline⟩ := logOutput_of_no_newline log _ hmsg
    refine ⟨_, by rw [ht, logPrintf, hout], ?_, hline⟩
    rw [sprintf_info, List.append_assoc, categoryOf_info]
    simp [categoryAt, hk]
  · obtain ⟨t, ht⟩ := tick_warn durationString env c log h hk
    have hmsg : (10 : UInt8) ∉
        Sprintf (ascii "WARN: Performance alert - response time: %dms (threshold: 500ms)")
          [.int t] := by
      rw [sprintf_warn]
      simp only [List.mem_append, not_or]
      exact ⟨by decide, by decide, formatInt_no_newline t, by decide⟩
    obtain ⟨hout, hline⟩ := logOutput_of_no_newline log _ hmsg
    refine ⟨_, by rw [ht, logPrintf, hout], ?_, hline⟩
    rw [sprintf_warn, List.append_assoc, categoryOf_warn]
    simp [categoryAt, hk]
  · obtain ⟨e, id, he, _, _, ht⟩ := tick_error durationString env c log h hk
    have hmsg : (10 : UInt8) ∉
        Sprintf (ascii "ERROR: System issue detected - %s (correlation_id: %d)")
          [.str e, .int id] := by
      rw [sprintf_error]
      simp only [List.mem_append, not_or]
      exact ⟨by decide, by decide, systemErrors_no_newline e he, by decide,
        formatInt_no_newline id, by decide⟩
    obtain ⟨hout, hline⟩ := logOutput_of_no_newline log _ hmsg
    refine ⟨_, by rw [ht, logPrintf, hout], ?_, hline⟩
    rw [sprintf_error, List.append_assoc, categoryOf_error]
    simp [categoryAt, hk]

theorem runTicks_cons (durationString : Int → GoString) (env : TickEnv) (rest : List TickEnv)
    (c : Int) (log : Log) (st1 : Int × Log)
    (h : tickBody durationString env c log = some st1) :
    runTicks durationString (env :: rest) (c, log) = runTicks durationString rest st1 := by
  simp only [runTicks, h]

theorem runTicks_spec (durationString : Int → GoString)
    (hdur : ∀ d, (10 : UInt8) ∉ durationString d) (ticks : List TickEnv) (c : Nat) (log : Log)
    (h : c + ticks.length < 2 ^ 63) :
    ∃ records : List GoString,
      runTicks durationString ticks ((c : Int), log)
        = some (((c + ticks.length : Nat) : Int), log ++ records) ∧
      records.length = ticks.length ∧
      ∀ (k : Nat) (record : GoString), records[k]? = some record →
        categoryOf record = some (categoryAt (c + k + 1)) ∧ lineCount record = 1 := by
  induction ticks generalizing c log with
  | nil =>
    refine ⟨[], ?_, rfl, ?_⟩
    · rw [runTicks, List.length_nil, Nat.add_zero, List.append_nil]
    · intro k record hk
      simp at hk
  | cons env rest ih =>
    have hlen : (env :: rest).length = rest.length + 1 := rfl
    obtain ⟨record, ht, hcat, hline⟩ :=
      tick_spec durationString env c log (by rw [hlen] at h; omega) hdur
    obtain ⟨records, hrun, hl, hrec⟩ := ih (c + 1) (log ++ [record]) (by rw [hlen] at h; omega)
    have hl1 : (record :: records).length = (env :: rest).length := by
      rw [List.length_cons, List.length_cons, hl]
    refine ⟨record :: records, ?_, hl1, ?_⟩
    · rw [runTicks_cons durationString env rest _ _ _ ht, hrun, hlen, List.append_assoc,
        List.singleton_append]
      have : c + 1 + rest.length = c + (rest.length + 1) := by omega
      rw [this]
    · intro k r hk
      cases k with
      | zero =>
        simp only [List.getElem?_cons_zero, Option.some.injEq] at hk
        subst hk
        exact ⟨hcat, hline⟩
      | succ k =>
        simp only [List.getElem?_cons_succ] at hk
        have := hrec k r hk
        have heq : c + 1 + k + 1 = c + (k + 1) + 1 := by omega
        rw [heq] at this
        exact this

theorem categoryAt_cycle (n : Nat) :
    categoryAt (n + 1) = (categoryAt n).next ∧ categoryAt (n + 4) = categoryAt n := by
  have hlt : n % 4 < 4 := Nat.mod_lt _ (by norm_num)
  have hcases : n % 4 = 0 ∨ n % 4 = 1 ∨ n % 4 = 2 ∨ n % 4 = 3 := by omega
  rcases hcases with h | h | h | h <;>
    simp [categoryAt, Category.next, Nat.add_mod, h]

theorem categoryAt_four (n : Nat) (c : Category) :
    [categoryAt n, categoryAt (n + 1), categoryAt (n + 2), categoryAt (n + 3)].count c = 1 := by
  have hlt : n % 4 < 4 := Nat.mod_lt _ (by norm_num)
  have hcases : n % 4 = 0 ∨ n % 4 = 1 ∨ n % 4 = 2 ∨ n % 4 = 3 := by omega
  rcases hcases with h | h | h | h <;> cases c <;>
    simp [categoryAt, Nat.add_mod, h, List.count_cons]

/-- C9: the kind of line written on the n-th tick depends on n only. For every sequence
of ticks (shorter than `2^63`, the range in which the counter `requestCount` of type
`int` equals the number of ticks), whatever the random numbers and clock readings, and
for every `Duration.String` that prints no newline: the loop does not panic, the
counter ends at the number of ticks, and exactly one record has been written per tick,
each a single line; the record of tick `k + 1` is of the kind `categoryAt (k + 1)`,
that is health check, system metrics, performance alert, simulated error for
`n % 4 = 0, 1, 2, 3`. The kinds follow each other in that cyclic order with period 4,
and any four consecutive ticks write each kind exactly once. -/
theorem periodic_category_cycle (durationString : Int → GoString) (ticks : List TickEnv)
    (log : Log) (hlen : ticks.length < 2 ^ 63)
    (hdur : ∀ d, (10 : UInt8) ∉ durationString d) :
    ∃ records : List GoString,
      startPeriodicLogging durationString ticks log
        = some ((ticks.length : Int), log ++ records) ∧
      records.length = ticks.length ∧
      (∀ (k : Nat) (record : GoString), records[k]? = some record →
        categoryOf record = some (categoryAt (k + 1)) ∧ lineCount record = 1) ∧
      (∀ n : Nat, categoryAt (n + 1) = (categoryAt n).next ∧
        categoryAt (n + 4) = categoryAt n) ∧
      (∀ (n : Nat) (c : Category),
        [categoryAt n, categoryAt (n + 1), categoryAt (n + 2), categoryAt (n + 3)].count c
          = 1) := by
  obtain ⟨records, hrun, hl, hrec⟩ :=
    runTicks_spec durationString hdur ticks 0 log (by omega)
  refine ⟨records, ?_, hl, ?_, categoryAt_cycle, categoryAt_four⟩
  · rw [startPeriodicLogging]
    simpa using hrun
  · intro k record hk
    simpa using hrec k record hk

/-- Witness of C9: five ticks from the start write system metrics, performance alert,
simulated error, health check, system metrics. -/
theorem periodic_category_cycle_witness :
    fiveTicks.length < 2 ^ 63 ∧
    (∀ d, (10 : UInt8) ∉ constantDuration d) ∧
    (∃ records : List GoString,
      startPeriodicLogging constantDuration fiveTicks [] = some (5, records) ∧
      records.length = 5) ∧
    (startPeriodicLogging constantDuration fiveTicks []).map
        (fun st => st.2.map categoryOf)
      = some [some .systemMetrics, some .performanceAlert, some .simulatedError,
          some .healthCheck, some .systemMetrics] := by
  have hdur : ∀ d, (10 : UInt8) ∉ constantDuration d := by
    intro d
    show (10 : UInt8) ∉ ascii "2m0s"
    decide
  refine ⟨by decide, hdur, ?_, by decide⟩
  obtain ⟨records, hrun, hl, _⟩ :=
    periodic_category_cycle constantDuration fiveTicks [] (by decide) hdur
  exact ⟨records, by simpa using hrun, hl⟩

theorem tickBody_isSome (durationString : Int → GoString) (env : TickEnv) (c : Int)
    (log : Log) : (tickBody durationString env c log).isSome = true := by
  obtain ⟨e, _, hidx⟩ := index_systemErrors env.draw1
  unfold tickBody
  simp only [intn_pos _ 50 (by norm_num), intn_pos _ 100 (by norm_num),
    intn_pos _ 30 (by norm_num), intn_pos _ 400 (by norm_num),
    intn_pos _ 10000 (by norm_num),
    intn_pos _ ((systemErrors.length : Nat) : Int) (by decide), hidx,
    Option.bind_eq_bind, Option.some_bind, Option.pure_def]
  split_ifs <;> rfl

/-- C10: the simulated-error line cannot panic on its random numbers. Every number that
`rand.Intn(len(systemErrors))` returns lies from 0 to 4, every such index is within the
bounds of `systemErrors`, and `rand.Intn(10000)+1000` lies from 1000 to 10999; no
iteration of the loop panics, whatever the counter; and on a tick with
`requestCount % 4 = 3` the record written is the error line with one of the five listed
descriptions and a correlation identifier from 1000 to 10999. -/
theorem simulated_error_in_bounds (durationString : Int → GoString) (env : TickEnv)
    (c : Nat) (log : Log) (h : c + 1 < 2 ^ 63) (hk : (c + 1) % 4 = 3) :
    (∀ draw : Nat, ∃ r e, Intn draw (systemErrors.length : Nat) = some r ∧ 0 ≤ r ∧ r < 5 ∧
      index systemErrors r = some e ∧ e ∈ systemErrors) ∧
    (∀ r : Int, 0 ≤ r → r < 5 → ∃ e, index systemErrors r = some e ∧ e ∈ systemErrors) ∧
    (∀ draw : Nat, ∃ v, Intn draw 10000 = some v ∧
      1000 ≤ wrapInt64 (v + 1000) ∧ wrapInt64 (v + 1000) ≤ 10999) ∧
    (∀ (env1 : TickEnv) (c1 : Int) (log1 : Log),
      (tickBody durationString env1 c1 log1).isSome = true) ∧
    ∃ e id, e ∈ systemErrors ∧ 1000 ≤ id ∧ id ≤ 10999 ∧
      tickBody durationString env c log =
        some (((c + 1 : Nat) : Int),
          log ++ [ascii "ERROR: System issue detected - " ++ e ++
            ascii " (correlation_id: " ++ formatInt id ++ ascii ")\n"]) := by
  refine ⟨?_, ?_, ?_, tickBody_isSome durationString, ?_⟩
  · intro draw
    obtain ⟨e, he, hidx⟩ := index_systemErrors draw
    have hlen : systemErrors.length = 5 := rfl
    refine ⟨_, e, intn_pos draw _ (by decide), ?_, ?_, hidx, he⟩
    · rw [hlen]
      omega
    · rw [hlen]
      omega
  · intro r h0 h5
    obtain ⟨e, he, hidx⟩ := index_systemErrors r.toNat
    have hr : ((r.toNat : Nat) : Int) % ((systemErrors.length : Nat) : Int) = r := by
      have hlen : systemErrors.length = 5 := rfl
      rw [hlen]
      omega
    rw [hr] at hidx
    exact ⟨e, hidx, he⟩
  · intro draw
    refine ⟨_, intn_pos draw _ (by norm_num), ?_⟩
    rw [wrapInt64_of_range _ (by norm_num; omega) (by norm_num; omega)]
    omega
  · obtain ⟨e, id, he, h1, h2, ht⟩ := tick_error durationString env c log h hk
    have hmsg : (10 : UInt8) ∉
        Sprintf (ascii "ERROR: System issue detected - %s (correlation_id: %d)")
          [.str e, .int id] := by
      rw [sprintf_error]
      simp only [List.mem_append, not_or]
      exact ⟨by decide, by decide, systemErrors_no_newline e he, by decide,
        formatInt_no_newline id, by decide⟩
    refine ⟨e, id, he, h1, h2, ?_⟩
    rw [ht, logPrintf, (logOutput_of_no_newline log _ hmsg).1, sprintf_error]
    simp only [List.append_assoc]
    rfl

/-- Witness of C10: the third tick, with raw numbers 13 and 123456, writes the error
line, and the loop has not panicked. -/
theorem simulated_error_in_bounds_witness :
    2 + 1 < 2 ^ 63 ∧ (2 + 1) % 4 = 3 ∧
    ∃ e id, e ∈ systemErrors ∧ (1000 : Int) ≤ id ∧ id ≤ 10999 ∧
      tickBody constantDuration { draw1 := 13, draw2 := 123456, elapsed := 101 }
          ((2 : Nat) : Int) []
        = some (((2 + 1 : Nat) : Int),
            [] ++ [ascii "ERROR: System issue detected - " ++ e ++
              ascii " (correlation_id: " ++ formatInt id ++ ascii ")\n"]) :=
  ⟨by norm_num, by norm_num,
    (simulated_error_in_bounds constantDuration { draw1 := 13, draw2 := 123456, elapsed := 101 }
      2 [] (by norm_num) (by norm_num)).2.2.2.2⟩

/-! ## Theorems about `main` -/

theorem run_append_singleton (durationString : Int → GoString) (es : List Event) (e : Event) :
    run durationString (es ++ [e]) = step durationString (run durationString es) e := by
  simp [run, List.foldl_append]

theorem step_of_exited (durationString : Int → GoString) (p : Proc) (e : Event)
    (h : p.exit.isSome = true) : step durationString p e = p := by
  simp [step, h]

theorem finishServe_fields (p : Proc) (err : GoError) :
    (finishServe p err).mainPc = p.mainPc ∧ (finishServe p err).inShutdown = p.inShutdown ∧
    (finishServe p err).servePc = .finished ∧ (finishServe p err).stopCh = p.stopCh ∧
    (finishServe p err).shutdownCtx = p.shutdownCtx ∧ (finishServe p err).addr = p.addr ∧
    (finishServe p err).exit = (serveReturned err p.log).2 ∧
    (finishServe p err).log = (serveReturned err p.log).1 := by
  simp [finishServe]

theorem consistent_step (durationString : Int → GoString) (p : Proc) (e : Event)
    (h : p.Consistent) : (step durationString p e).Consistent := by
  unfold step
  split
  · exact h
  · obtain ⟨h1, h2⟩ := h
    cases e with
    | main =>
      simp only [stepMain]
      cases hm : p.mainPc <;> simp only [hm] at h1 h2 ⊢
      · simp [Proc.Consistent, h2]
      · simp [Proc.Consistent, h2]
      · cases hs : p.stopCh <;> simp [Proc.Consistent, hm, h2]
      · simp [Proc.Consistent, hm, h2]
    | serve io =>
      simp only [stepServe]
      cases hs : p.servePc <;> simp only [hs] at h1 ⊢
      · exact ⟨by simp [hs], h2⟩
      · exact ⟨by simpa using h1, h2⟩
      · split
        · simp only [Proc.Consistent, finishServe_fields]
          exact ⟨by simpa using h1, h2⟩
        · cases io <;> simp only [Proc.Consistent, finishServe_fields]
          · exact ⟨by simpa using h1, h2⟩
          · exact ⟨by simpa using h1, h2⟩
      · split
        · simp only [Proc.Consistent, finishServe_fields]
          exact ⟨by simpa using h1, h2⟩
        · cases io <;> simp only [Proc.Consistent, finishServe_fields]
          · exact ⟨by simpa [hs] using h1, h2⟩
          · exact ⟨by simpa using h1, h2⟩
      · exact ⟨by simpa [hs] using h1, h2⟩
    | signal sig dfl =>
      simp only [stepSignal]
      split_ifs <;> exact ⟨h1, h2⟩
    | shutdownReturns res =>
      simp only [stepShutdownReturns]
      split_ifs <;> exact ⟨h1, h2⟩
    | tick env =>
      simp only [stepTick]
      split
      · split <;> exact ⟨h1, h2⟩
      · exact ⟨h1, h2⟩
    | accept r =>
      simp only [stepAccept]
      split_ifs <;> exact ⟨h1, h2⟩
    | handle i =>
      simp only [stepHandle]
      split <;> exact ⟨h1, h2⟩

theorem phase_step_mono (durationString : Int → GoString) (p : Proc) (e : Event)
    (h : p.Consistent) :
    (phase p).rank ≤ (phase (step durationString p e)).rank := by
  unfold step
  split
  · exact Nat.le_refl _
  · rename_i hex
    have hex1 : p.exit = none := by
      cases hx : p.exit <;> simp [hx] at hex ⊢
    obtain ⟨h1, h2⟩ := h
    cases e with
    | main =>
      simp only [stepMain]
      cases hm : p.mainPc <;> simp only [hm] at h1 h2 ⊢
      · simp [phase, hex1, hm, h1, Phase.rank]
      · simp only [phase, hex1, hm]
        exact Nat.le_refl _
      · cases hs : p.stopCh
        · exact Nat.le_refl _
        · simp only [phase, hex1, hm]
          by_cases hsv : p.servePc = .serving <;> simp [hsv, Phase.rank]
      · exact Nat.le_refl _
    | serve io =>
      have hfin : ∀ err, (phase p).rank ≤ (phase (finishServe p err)).rank ∨
          (p.mainPc ≠ .draining ∧ (serveReturned err p.log).2 = none) := by
        intro err
        by_cases hd : p.mainPc = .draining
        · left
          simp only [phase, hex1, finishServe_fields, hd]
          cases (serveReturned err p.log).2 <;> simp [Phase.rank]
        · cases hx : (serveReturned err p.log).2
          · exact Or.inr ⟨hd, rfl⟩
          · left
            simp only [phase, finishServe_fields, hx]
            simp only [Option.isSome_some, if_true, Phase.rank]
            split_ifs <;> simp [Phase.rank]
      have hother : ∀ msg, (serveReturned (.other msg) p.log).2 ≠ none := by
        intro msg
        simp [serveReturned, errorsIs, logFatalf]
      simp only [stepServe]
      cases hs : p.servePc <;> simp only []
      · exact Nat.le_refl _
      · simp [phase, hex1, hs]
      · split
        · rename_i hsh
          rcases hfin .ErrServerClosed with h | ⟨hnd, _⟩
          · exact h
          · exact absurd (h2.mp hsh) hnd
        · cases io with
          | none =>
            simp only [phase, hex1, hs]
            split_ifs <;> simp [Phase.rank]
          | some msg =>
            rcases hfin (.other msg) with h | ⟨_, hn⟩
            · exact h
            · exact absurd hn (hother msg)
      · split
        · rename_i hsh
          rcases hfin .ErrServerClosed with h | ⟨hnd, _⟩
          · exact h
          · exact absurd (h2.mp hsh) hnd
        · cases io with
          | none => exact Nat.le_refl _
          | some msg =>
            rcases hfin (.other msg) with h | ⟨_, hn⟩
            · exact h
            · exact absurd hn (hother msg)
      · exact Nat.le_refl _
    | signal sig dfl =>
      simp only [stepSignal]
      split_ifs
      · simp only [phase, hex1]
        exact Nat.le_refl _
      · exact Nat.le_refl _
      · simp only [phase, hex1]
        simp only [Option.isSome_some, Option.isSome_none, if_true, Phase.rank]
        split_ifs <;> simp [Phase.rank]
      · exact Nat.le_refl _
    | shutdownReturns res =>
      simp only [stepShutdownReturns]
      split_ifs
      · simp only [phase, hex1]
        simp only [Option.isSome_some, Option.isSome_none, if_true, Phase.rank]
        split_ifs <;> simp [Phase.rank]
      · exact Nat.le_refl _
    | tick env =>
      simp only [stepTick]
      split
      · split
        · simp only [phase, hex1]
          simp only [Option.isSome_some, Option.isSome_none, if_true, Phase.rank]
          split_ifs <;> simp [Phase.rank]
        · simp only [phase, hex1]
          exact Nat.le_refl _
      · exact Nat.le_refl _
    | accept r =>
      simp only [stepAccept]
      split_ifs
      · simp only [phase, hex1]
        exact Nat.le_refl _
      · exact Nat.le_refl _
    | handle i =>
      simp only [stepHandle]
      split
      · exact Nat.le_refl _
      · simp only [phase, hex1, serveGreet]
        exact Nat.le_refl _

theorem termSignalSeen_append (es : List Event) (e : Event) (h : TermSignalSeen es) :
    TermSignalSeen (es ++ [e]) := by
  obtain ⟨sig, dfl, hs, hmem⟩ := h
  exact ⟨sig, dfl, hs, List.mem_append_left _ hmem⟩

theorem caused_append (es : List Event) (e : Event) (p : Proc) (h : p.Caused es) :
    p.Caused (es ++ [e]) :=
  ⟨fun hs => termSignalSeen_append es e (h.1 hs),
    fun hd => ⟨termSignalSeen_append es e (h.2.1 hd).1, (h.2.1 hd).2⟩, h.2.2⟩

theorem caused_step (durationString : Int → GoString) (es : List Event) (p : Proc) (e : Event)
    (h : p.Caused es) : (step durationString p e).Caused (es ++ [e]) := by
  have h0 := caused_append es e p h
  unfold step
  split
  · exact h0
  · obtain ⟨h1, h2, h3⟩ := h0
    cases e with
    | main =>
      simp only [stepMain]
      cases hm : p.mainPc <;> simp only [hm] at h2 h3 ⊢
      · exact ⟨h1, by simp, by simp⟩
      · exact ⟨h1, by simp, by simpa using h3⟩
      · cases hs : p.stopCh with
        | nil => exact ⟨h1, by simp [hm], by simpa [hm] using h3⟩
        | cons sig rest =>
          have hseen := h1 (by simp [hs])
          exact ⟨fun _ => hseen, fun _ => ⟨hseen, rfl⟩, by simpa using h3⟩
      · exact ⟨h1, by simpa [hm] using h2, by simpa [hm] using h3⟩
    | serve io =>
      have hfin : ∀ err, (finishServe p err).Caused (es ++ [Event.serve io]) := by
        intro err
        simp only [Proc.Caused, finishServe_fields]
        exact ⟨h1, h2, h3⟩
      simp only [stepServe]
      cases hs : p.servePc <;> simp only []
      · exact ⟨h1, h2, h3⟩
      · exact ⟨h1, h2, h3⟩
      · split
        · exact hfin _
        · cases io with
          | none => exact ⟨h1, h2, h3⟩
          | some msg => exact hfin _
      · split
        · exact hfin _
        · cases io with
          | none => exact ⟨h1, h2, h3⟩
          | some msg => exact hfin _
      · exact ⟨h1, h2, h3⟩
    | signal sig dfl =>
      simp only [stepSignal]
      split_ifs with hn hlt hd
      · have hsig : sig = SIGINT ∨ sig = SIGTERM := by
          simpa [notifySet] using hn.2
        have hseen : TermSignalSeen (es ++ [Event.signal sig dfl]) :=
          ⟨sig, dfl, hsig, by simp⟩
        exact ⟨fun _ => hseen, h2, h3⟩
      · exact ⟨h1, h2, h3⟩
      · exact ⟨h1, h2, h3⟩
      · exact ⟨h1, h2, h3⟩
    | shutdownReturns res =>
      simp only [stepShutdownReturns]
      split_ifs
      · exact ⟨h1, h2, h3⟩
      · exact ⟨h1, h2, h3⟩
    | tick env =>
      simp only [stepTick]
      split
      · split <;> exact ⟨h1, h2, h3⟩
      · exact ⟨h1, h2, h3⟩
    | accept r =>
      simp only [stepAccept]
      split_ifs <;> exact ⟨h1, h2, h3⟩
    | handle i =>
      simp only [stepHandle]
      split <;> exact ⟨h1, h2, h3⟩

theorem run_invariants (durationString : Int → GoString) (es : List Event) :
    (run durationString es).Consistent ∧ (run durationString es).Caused es := by
  induction es using List.reverseRecOn with
  | nil =>
    constructor
    · simp [run, Proc.init, Proc.Consistent]
    · simp [run, Proc.init, Proc.Caused]
  | append_singleton es e ih =>
    rw [run_append_singleton]
    exact ⟨consistent_step durationString _ e ih.1, caused_step durationString es _ e ih.2⟩

theorem phase_run_mono (durationString : Int → GoString) (es more : List Event) :
    (phase (run durationString es)).rank ≤ (phase (run durationString (es ++ more))).rank := by
  induction more using List.reverseRecOn with
  | nil => simp
  | append_singleton more e ih =>
    rw [← List.append_assoc, run_append_singleton]
    exact Nat.le_trans ih
      (phase_step_mono durationString _ e (run_invariants durationString (es ++ more)).1)

theorem head?_append_of_head? (A x : GoString) (b : UInt8) (h : A.head? = some b) :
    (A ++ x).head? = some b := by
  cases A with
  | nil => simp at h
  | cons a A => simpa using h

theorem not_mem_logOutput (log : Log) (msg : GoString) (b : UInt8) (hb : msg.head? = some b)
    (hne : b ≠ 83) (h : completionRecord ∉ log) : completionRecord ∉ logOutput log msg := by
  rw [logOutput_eq]
  intro hmem
  rcases List.mem_append.mp hmem with h1 | h1
  · exact h h1
  · rw [List.mem_singleton] at h1
    have h2 := congrArg List.head? h1
    rw [head?_append_of_head? msg _ b hb] at h2
    have h3 : completionRecord.head? = some 83 := by decide
    rw [h3] at h2
    exact hne (Option.some.inj h2).symm

theorem not_mem_append_singleton (log : Log) (r : GoString) (hr : r ≠ completionRecord)
    (h : completionRecord ∉ log) : completionRecord ∉ log ++ [r] := by
  intro hmem
  rcases List.mem_append.mp hmem with h1 | h1
  · exact h h1
  · exact hr (List.mem_singleton.mp h1).symm

theorem logPrintln_eq (log : Log) (s : GoString) : logPrintln log s = log ++ [s ++ [10]] := by
  unfold logPrintln logOutput
  rw [if_pos (List.getLast?_concat s)]

theorem not_mem_serveGreet (r : Request) (log : Log) (h : completionRecord ∉ log) :
    completionRecord ∉ (serveGreet r log).2 := by
  rw [serveGreet_eq]
  refine not_mem_logOutput log _ 73 ?_ (by decide) h
  exact head?_append_of_head? _ _ _ (head?_append_of_head? _ _ _
    (head?_append_of_head? _ _ _ (by decide)))

theorem not_mem_tickBody (durationString : Int → GoString) (env : TickEnv) (c : Int)
    (log : Log) (st : Int × Log) (ht : tickBody durationString env c log = some st)
    (h : completionRecord ∉ log) : completionRecord ∉ st.2 := by
  obtain ⟨e, _, hidx⟩ := index_systemErrors env.draw1
  unfold tickBody at ht
  simp only [intn_pos _ 50 (by norm_num), intn_pos _ 100 (by norm_num),
    intn_pos _ 30 (by norm_num), intn_pos _ 400 (by norm_num),
    intn_pos _ 10000 (by norm_num),
    intn_pos _ ((systemErrors.length : Nat) : Int) (by decide), hidx,
    Option.bind_eq_bind, Option.some_bind, Option.pure_def] at ht
  split_ifs at ht
  · rw [Option.some.injEq] at ht
    rw [← ht]
    show completionRecord ∉ logPrintf log _ _
    rw [logPrintf, sprintf_debug]
    exact not_mem_logOutput log _ 68 (head?_append_of_head? _ _ 68 (by decide)) (by decide) h
  · rw [Option.some.injEq] at ht
    rw [← ht]
    show completionRecord ∉ logPrintf log _ _
    rw [logPrintf, sprintf_info]
    exact not_mem_logOutput log _ 73 (head?_append_of_head? _ _ 73 (by decide)) (by decide) h
  · rw [Option.some.injEq] at ht
    rw [← ht]
    show completionRecord ∉ logPrintf log _ _
    rw [logPrintf, sprintf_warn]
    exact not_mem_logOutput log _ 87 (head?_append_of_head? _ _ 87 (by decide)) (by decide) h
  · rw [Option.some.injEq] at ht
    rw [← ht]
    show completionRecord ∉ logPrintf log _ _
    rw [logPrintf, sprintf_error]
    exact not_mem_logOutput log _ 69 (head?_append_of_head? _ _ 69 (by decide)) (by decide) h
  · rw [Option.some.injEq] at ht
    rw [← ht]
    exact h

theorem sprintf_listenError (x : GoString) :
    Sprintf (ascii "HTTP ListenAndServe error: %v") [.str x]
      = ascii "HTTP ListenAndServe error: " ++ (x ++ []) :=
  rfl

theorem sprintf_shutdownError (x : GoString) :
    Sprintf (ascii "HTTP shutdown error: %v") [.str x]
      = ascii "HTTP shutdown error: " ++ (x ++ []) :=
  rfl

theorem serveReturned_closed (log : Log) :
    serveReturned .ErrServerClosed log =
      (log ++ [ascii "HTTP server stopped serving new requests.\n"], none) := by
  simp only [serveReturned, errorsIs, logPrintln_eq]
  rfl

theorem serveReturned_fatal (err : GoError) (log : Log) (h : err ≠ .ErrServerClosed) :
    serveReturned err log =
      (logOutput log (ascii "HTTP ListenAndServe error: " ++ err.Error), some (.code 1)) := by
  simp only [serveReturned, errorsIs, logFatalf, logPrintf, sprintf_listenError,
    List.append_nil]
  simp [h]

theorem not_mem_serveReturned (err : GoError) (log : Log) (h : completionRecord ∉ log) :
    completionRecord ∉ (serveReturned err log).1 ∧
      (serveReturned err log).2 ≠ some (.code 0) := by
  by_cases herr : err = .ErrServerClosed
  · subst herr
    rw [serveReturned_closed]
    exact ⟨not_mem_append_singleton log _ (by decide) h, by simp⟩
  · rw [serveReturned_fatal err log herr]
    exact ⟨not_mem_logOutput log _ 72 (head?_append_of_head? _ _ _ (by decide)) (by decide) h,
      by simp⟩

theorem shutdownReturned_clean (log : Log) :
    shutdownReturned none log = (log ++ [ascii "Shutdown complete.\n"], .code 0) := by
  simp only [shutdownReturned, logPrintln_eq]
  rfl

theorem shutdownReturned_fatal (err : GoError) (log : Log) :
    shutdownReturned (some err) log =
      (logOutput log (ascii "HTTP shutdown error: " ++ err.Error), .code 1) := by
  simp only [shutdownReturned, logFatalf, logPrintf, sprintf_shutdownError, List.append_nil]

theorem not_mem_shutdownReturned (err : GoError) (log : Log) (h : completionRecord ∉ log) :
    completionRecord ∉ (shutdownReturned (some err) log).1 := by
  rw [shutdownReturned_fatal]
  exact not_mem_logOutput log _ 72 (head?_append_of_head? _ _ _ (by decide)) (by decide) h

theorem logInv_of_not_mem (p : Proc) (h1 : completionRecord ∉ p.log)
    (h2 : p.exit ≠ some (.code 0)) : p.LogInv :=
  ⟨fun h => absurd h h1, fun h => absurd h h2⟩

theorem sprintf_starting :
    Sprintf (ascii "Starting HTTP Greeter on port %d\n") [.int serverPort]
      = ascii "Starting HTTP Greeter on port 9090\n" := by
  decide

theorem logPrintf_starting (log : Log) :
    logPrintf log (ascii "Starting HTTP Greeter on port %d\n") [.int serverPort]
      = log ++ [ascii "Starting HTTP Greeter on port 9090\n"] := by
  rw [logPrintf, sprintf_starting, logOutput, if_pos (by decide)]

theorem logInv_step (durationString : Int → GoString) (p : Proc) (e : Event)
    (h : p.LogInv) : (step durationString p e).LogInv := by
  unfold step
  split
  · exact h
  · rename_i hex
    have hex1 : p.exit = none := by
      cases hx : p.exit <;> simp [hx] at hex ⊢
    have hlog : completionRecord ∉ p.log := by
      intro hmem
      have := h.mp hmem
      rw [hex1] at this
      exact absurd this (by simp)
    have hsame : ∀ q : Proc, q.log = p.log → q.exit = p.exit → q.LogInv := by
      intro q h1 h2
      exact logInv_of_not_mem q (by rw [h1]; exact hlog) (by rw [h2, hex1]; simp)
    cases e with
    | main =>
      simp only [stepMain]
      cases hm : p.mainPc <;> simp only []
      · exact hsame _ rfl rfl
      · exact hsame _ rfl rfl
      · cases hs : p.stopCh with
        | nil => exact hsame _ rfl rfl
        | cons sig rest =>
          refine logInv_of_not_mem _ ?_ (by simp [hex1])
          show completionRecord ∉ logPrintln p.log (ascii "Shutting down the server...")
          rw [logPrintln_eq]
          exact not_mem_append_singleton _ _ (by decide) hlog
      · exact hsame _ rfl rfl
    | serve io =>
      have hfin : ∀ err, (finishServe p err).LogInv := by
        intro err
        refine logInv_of_not_mem _ ?_ ?_
        · rw [(finishServe_fields p err).2.2.2.2.2.2.2]
          exact (not_mem_serveReturned err p.log hlog).1
        · rw [(finishServe_fields p err).2.2.2.2.2.2.1]
          exact (not_mem_serveReturned err p.log hlog).2
      simp only [stepServe]
      cases hs : p.servePc <;> simp only []
      · exact hsame _ rfl rfl
      · refine logInv_of_not_mem _ ?_ (by simp [hex1])
        show completionRecord ∉
          logPrintf p.log (ascii "Starting HTTP Greeter on port %d\n") [.int serverPort]
        rw [logPrintf_starting]
        exact not_mem_append_singleton _ _ (by decide) hlog
      · split
        · exact hfin _
        · cases io with
          | none => exact hsame _ rfl rfl
          | some msg => exact hfin _
      · split
        · exact hfin _
        · cases io with
          | none => exact hsame _ rfl rfl
          | some msg => exact hfin _
      · exact hsame _ rfl rfl
    | signal sig dfl =>
      simp only [stepSignal]
      split_ifs
      · exact hsame _ rfl rfl
      · exact hsame _ rfl rfl
      · exact logInv_of_not_mem _ hlog (by simp)
      · exact hsame _ rfl rfl
    | shutdownReturns res =>
      simp only [stepShutdownReturns]
      split_ifs
      · cases res with
        | none =>
          simp only [shutdownReturned_clean]
          exact ⟨fun _ => rfl, fun _ => by
            show completionRecord ∈ p.log ++ [ascii "Shutdown complete.\n"]
            exact List.mem_append_right _ (List.mem_singleton.mpr rfl)⟩
        | some err =>
          refine logInv_of_not_mem _ ?_ ?_
          · exact not_mem_shutdownReturned err p.log hlog
          · simp [shutdownReturned_fatal]
      · exact hsame _ rfl rfl
    | tick env =>
      simp only [stepTick]
      split
      · split
        · exact logInv_of_not_mem _ hlog (by simp)
        · rename_i st hst
          refine logInv_of_not_mem _ ?_ (by simp [hex1])
          exact not_mem_tickBody durationString env p.requestCount p.log st hst hlog
      · exact hsame _ rfl rfl
    | accept r =>
      simp only [stepAccept]
      split_ifs
      · exact hsame _ rfl rfl
      · exact hsame _ rfl rfl
    | handle i =>
      simp only [stepHandle]
      split
      · exact hsame _ rfl rfl
      · rename_i r hr
        refine logInv_of_not_mem _ ?_ (by simp [serveGreet, hex1])
        exact not_mem_serveGreet r p.log hlog

theorem run_logInv (durationString : Int → GoString) (es : List Event) :
    (run durationString es).LogInv := by
  induction es using List.reverseRecOn with
  | nil => exact logInv_of_not_mem _ (by simp [run, Proc.init]) (by simp [run, Proc.init])
  | append_singleton es e ih =>
    rw [run_append_singleton]
    exact logInv_step durationString _ e ih

theorem phase_serving (p : Proc) (h : phase p = .serving) :
    p.exit = none ∧ p.mainPc ≠ .draining ∧ p.servePc = .serving := by
  unfold phase at h
  split_ifs at h with h1 h2 h3
  refine ⟨?_, h2, h3⟩
  cases hx : p.exit <;> simp [hx] at h1 ⊢

theorem phase_draining (p : Proc) (h : phase p = .draining) :
    p.exit = none ∧ p.mainPc = .draining := by
  unfold phase at h
  split_ifs at h with h1 h2 h3
  refine ⟨?_, h2⟩
  cases hx : p.exit <;> simp [hx] at h1 ⊢

theorem step_of_running (durationString : Int → GoString) (p : Proc) (e : Event)
    (h : p.exit = none) :
    step durationString p e =
      match e with
      | .main => stepMain p
      | .serve io => stepServe p io
      | .signal sig dfl => stepSignal p sig dfl
      | .shutdownReturns res => stepShutdownReturns p res
      | .tick env => stepTick durationString p env
      | .accept r => stepAccept p r
      | .handle i => stepHandle p i := by
  unfold step
  rw [if_neg (by simp [h])]

theorem step_to_draining (durationString : Int → GoString) (p : Proc) (e : Event)
    (hex : p.exit = none) (hnd : p.mainPc ≠ .draining)
    (hd : (step durationString p e).mainPc = .draining) :
    e = .main ∧ p.stopCh ≠ [] := by
  rw [step_of_running durationString p e hex] at hd
  cases e with
  | main =>
    refine ⟨rfl, ?_⟩
    intro hs
    cases hm : p.mainPc
    · simp [stepMain, hm] at hd
    · simp [stepMain, hm] at hd
    · simp [stepMain, hm, hs] at hd
    · exact hnd hm
  | serve io =>
    exfalso
    simp only [stepServe] at hd
    cases hs : p.servePc <;> simp only [hs] at hd
    · exact hnd hd
    · exact hnd hd
    · split at hd
      · exact hnd ((finishServe_fields p _).1 ▸ hd)
      · cases io with
        | none => exact hnd hd
        | some msg => exact hnd ((finishServe_fields p _).1 ▸ hd)
    · split at hd
      · exact hnd ((finishServe_fields p _).1 ▸ hd)
      · cases io with
        | none => exact hnd hd
        | some msg => exact hnd ((finishServe_fields p _).1 ▸ hd)
    · exact hnd hd
  | signal sig dfl =>
    exfalso
    simp only [stepSignal] at hd
    split_ifs at hd <;> exact hnd hd
  | shutdownReturns res =>
    exfalso
    simp only [stepShutdownReturns] at hd
    split_ifs at hd <;> exact hnd hd
  | tick env =>
    exfalso
    simp only [stepTick] at hd
    split at hd
    · split at hd <;> exact hnd hd
    · exact hnd hd
  | accept r =>
    exfalso
    simp only [stepAccept] at hd
    split_ifs at hd <;> exact hnd hd
  | handle i =>
    exfalso
    simp only [stepHandle] at hd
    split at hd
    · exact hnd hd
    · exact hnd hd

theorem rank_injective (a b : Phase) (h : a.rank = b.rank) : a = b := by
  cases a <;> cases b <;> simp [Phase.rank] at h ⊢

/-- C6: the lifecycle of `main` runs through idle, serving, draining, stopped in that
order. Whenever one event takes the process from serving to draining, that event is
the step of `main` that receives from the channel and calls `server.Shutdown`, and
`SIGINT` or `SIGTERM` was delivered before it; no other event makes this transition.
More generally the process is draining only after such a signal was delivered. Along
every run the position of the state in the order never decreases, so a state that has
been left is never entered again (in particular draining never goes back to serving);
and once `Shutdown` has been called a connection that arrives is not accepted. -/
theorem lifecycle_order (durationString : Int → GoString) (es : List Event) (e : Event)
    (hs : phase (run durationString es) = .serving)
    (hd : phase (run durationString (es ++ [e])) = .draining) :
    e = .main ∧
    (∃ sig dfl, (sig = SIGINT ∨ sig = SIGTERM) ∧ Event.signal sig dfl ∈ es) ∧
    (∀ es1 : List Event, phase (run durationString es1) = .draining →
      ∃ sig dfl, (sig = SIGINT ∨ sig = SIGTERM) ∧ Event.signal sig dfl ∈ es1) ∧
    (∀ es1 more : List Event,
      (phase (run durationString es1)).rank ≤
        (phase (run durationString (es1 ++ more))).rank) ∧
    (∀ es1 more1 more2 : List Event,
      phase (run durationString (es1 ++ more1)) ≠ phase (run durationString es1) →
      phase (run durationString (es1 ++ more1 ++ more2)) ≠ phase (run durationString es1)) ∧
    (∀ (es1 : List Event) (r : Request), phase (run durationString es1) = .draining →
      (run durationString (es1 ++ [Event.accept r])).inflight
        = (run durationString es1).inflight) := by
  obtain ⟨hex, hnd, _⟩ := phase_serving _ hs
  rw [run_append_singleton] at hd
  obtain ⟨_, hd2⟩ := phase_draining _ hd
  obtain ⟨he, hch⟩ := step_to_draining durationString _ e hex hnd hd2
  refine ⟨he, (run_invariants durationString es).2.1 hch, ?_, phase_run_mono durationString,
    ?_, ?_⟩
  · intro es1 h1
    exact ((run_invariants durationString es1).2.2.1 (phase_draining _ h1).2).1
  · intro es1 more1 more2 hne heq
    have h1 := phase_run_mono durationString es1 more1
    have h2 := phase_run_mono durationString (es1 ++ more1) more2
    rw [heq] at h2
    exact hne (rank_injective _ _ (Nat.le_antisymm h2 h1))
  · intro es1 r h1
    obtain ⟨hex1, hd1⟩ := phase_draining _ h1
    have hsh : (run durationString es1).inShutdown = true :=
      (run_invariants durationString es1).1.2.mpr hd1
    rw [run_append_singleton, step_of_running durationString _ _ hex1]
    simp [stepAccept, hsh]

/-- Witness of C6: the listener is bound, `SIGTERM` arrives, and the next step of `main`
takes the process from serving to draining. -/
theorem lifecycle_order_witness :
    phase (run constantDuration sigtermRun) = .serving ∧
    phase (run constantDuration (sigtermRun ++ [Event.main])) = .draining ∧
    ∃ sig dfl, (sig = SIGINT ∨ sig = SIGTERM) ∧ Event.signal sig dfl ∈ sigtermRun :=
  ⟨by decide, by decide,
    (lifecycle_order constantDuration sigtermRun Event.main (by decide) (by decide)).2.1⟩

theorem logOutput_record (log : Log) (msg : GoString) :
    ∃ record, logOutput log msg = log ++ [record] ∧ msg <+: record := by
  rw [logOutput_eq]
  exact ⟨_, rfl, List.prefix_append _ _⟩

theorem step_shutdownReturns (durationString : Int → GoString) (p : Proc)
    (res : Option GoError) (hex : p.exit = none) (hd : p.mainPc = .draining) :
    (step durationString p (.shutdownReturns res)).exit = some (shutdownReturned res p.log).2 ∧
    (step durationString p (.shutdownReturns res)).log = (shutdownReturned res p.log).1 := by
  rw [step_of_running durationString p _ hex]
  simp [stepShutdownReturns, hd]

/-- C7: the drain is bounded by 10 seconds and ends in one of two ways. In every state
in which the process is draining, the context given to `server.Shutdown` has the
timeout `10 * time.Second`. If `Shutdown` returns no error, the record
`Shutdown complete.` is written and the process ends with status 0. If it returns an
error, whichever it is and in particular `context.DeadlineExceeded`, the record
`HTTP shutdown error: ` followed by the error is written, the process ends with status
1, and the record `Shutdown complete.` is not in the log. In every run that record is
in the log exactly when the process has ended with status 0. -/
theorem shutdown_outcomes (durationString : Int → GoString) (es : List Event)
    (hd : phase (run durationString es) = .draining) :
    shutdownTimeout = 10000000000 ∧
    (run durationString es).shutdownCtx = some 10000000000 ∧
    (step durationString (run durationString es) (.shutdownReturns none)).exit
      = some (.code 0) ∧
    (step durationString (run durationString es) (.shutdownReturns none)).log
      = (run durationString es).log ++ [ascii "Shutdown complete.\n"] ∧
    (∀ err : GoError,
      (step durationString (run durationString es) (.shutdownReturns (some err))).exit
        = some (.code 1) ∧
      ascii "Shutdown complete.\n" ∉
        (step durationString (run durationString es) (.shutdownReturns (some err))).log ∧
      ∃ record,
        (step durationString (run durationString es) (.shutdownReturns (some err))).log
          = (run durationString es).log ++ [record] ∧
        ascii "HTTP shutdown error: " ++ err.Error <+: record) ∧
    (step durationString (run durationString es)
        (.shutdownReturns (some .DeadlineExceeded))).log
      = (run durationString es).log ++
          [ascii "HTTP shutdown error: context deadline exceeded\n"] ∧
    (∀ es1 : List Event,
      ascii "Shutdown complete.\n" ∈ (run durationString es1).log ↔
        (run durationString es1).exit = some (.code 0)) := by
  obtain ⟨hex, hpc⟩ := phase_draining _ hd
  have hctx := ((run_invariants durationString es).2.2.1 hpc).2
  have hlog : completionRecord ∉ (run durationString es).log := by
    intro hmem
    have := (run_logInv durationString es).mp hmem
    rw [hex] at this
    exact absurd this (by simp)
  have hstep := fun res => step_shutdownReturns durationString _ res hex hpc
  refine ⟨by decide, hctx, ?_, ?_, ?_, ?_, run_logInv durationString⟩
  · rw [(hstep none).1, shutdownReturned_clean]
  · rw [(hstep none).2, shutdownReturned_clean]
  · intro err
    rw [(hstep (some err)).1, (hstep (some err)).2, shutdownReturned_fatal]
    refine ⟨rfl, ?_, logOutput_record _ _⟩
    have := not_mem_shutdownReturned err _ hlog
    rw [shutdownReturned_fatal] at this
    exact this
  · rw [(hstep _).2, shutdownReturned_fatal, logOutput]
    rfl

/-- Witness of C7: after `SIGTERM` the process is draining; a clean return of `Shutdown`
ends it with status 0. -/
theorem shutdown_outcomes_witness :
    phase (run constantDuration (sigtermRun ++ [Event.main])) = .draining ∧
    (step constantDuration (run constantDuration (sigtermRun ++ [Event.main]))
        (.shutdownReturns none)).exit = some (.code 0) :=
  ⟨by decide,
    (shutdown_outcomes constantDuration (sigtermRun ++ [Event.main]) (by decide)).2.2.1⟩

/-- C8: the server listens on `:9090`, and the serving goroutine ends the process
exactly when `ListenAndServe` returns an error other than `http.ErrServerClosed`. The
field `Addr` is the text `:9090`, in every run once `main` has built the server. For
every error `err` returned by `ListenAndServe`, lines 48 to 51 exit with status 1 if
and only if `err` is not `http.ErrServerClosed`, after writing
`HTTP ListenAndServe error: ` and the error; for `http.ErrServerClosed` they do not
exit and write `HTTP server stopped serving new requests.` only. In the process, while
the serving goroutine is in `ListenAndServe`, its step ends the process with status 1
exactly when `Shutdown` has not been called and binding or accepting fails; after
`Shutdown` the step does not end the process. -/
theorem listen_and_serve_outcomes (durationString : Int → GoString) (p : Proc)
    (io : Option GoString) (err : GoError) (log : Log)
    (hex : p.exit = none) (hpc : p.servePc = .listen ∨ p.servePc = .serving) :
    serverAddr = ascii ":9090" ∧
    (∀ es : List Event, (run durationString es).mainPc ≠ .start →
      (run durationString es).addr = ascii ":9090") ∧
    ((serveReturned err log).2 = some (.code 1) ↔ err ≠ .ErrServerClosed) ∧
    ((serveReturned err log).2 = none ↔ err = .ErrServerClosed) ∧
    serveReturned .ErrServerClosed log
      = (log ++ [ascii "HTTP server stopped serving new requests.\n"], none) ∧
    (∀ msg : GoString, ∃ record,
      serveReturned (.other msg) log = (log ++ [record], some (.code 1)) ∧
      ascii "HTTP ListenAndServe error: " ++ msg <+: record) ∧
    ((step durationString p (.serve io)).exit = some (.code 1) ↔
      (p.inShutdown = false ∧ io.isSome = true)) ∧
    (∀ msg : GoString, p.inShutdown = false → ∃ record,
      (step durationString p (.serve (some msg))).log = p.log ++ [record] ∧
      ascii "HTTP ListenAndServe error: " ++ msg <+: record) ∧
    (p.inShutdown = true →
      (step durationString p (.serve io)).exit = none ∧
      (step durationString p (.serve io)).log
        = p.log ++ [ascii "HTTP server stopped serving new requests.\n"]) := by
  have haddr : serverAddr = ascii ":9090" := by decide
  have hfatal : ∀ msg : GoString, ∃ record,
      serveReturned (.other msg) log = (log ++ [record], some (.code 1)) ∧
      ascii "HTTP ListenAndServe error: " ++ msg <+: record := by
    intro msg
    rw [serveReturned_fatal _ _ (by simp)]
    obtain ⟨record, h1, h2⟩ :=
      logOutput_record log (ascii "HTTP ListenAndServe error: " ++ (GoError.other msg).Error)
    exact ⟨record, by rw [h1], h2⟩
  have hstep : step durationString p (.serve io) =
      if p.inShutdown = true then finishServe p .ErrServerClosed
      else match io with
        | some msg => finishServe p (.other msg)
        | none => if p.servePc = .listen then { p with servePc := .serving } else p := by
    rw [step_of_running durationString p _ hex]
    rcases hpc with h | h
    · simp only [stepServe, h]
      split
      · rfl
      · cases io <;> simp
    · simp only [stepServe, h]
      split
      · rfl
      · cases io <;> simp
  refine ⟨haddr, ?_, ?_, ?_, serveReturned_closed log, hfatal, ?_, ?_, ?_⟩
  · intro es hne
    rw [(run_invariants durationString es).2.2.2 hne, haddr]
  · by_cases h : err = .ErrServerClosed
    · subst h
      simp [serveReturned_closed]
    · simp [serveReturned_fatal _ _ h, h]
  · by_cases h : err = .ErrServerClosed
    · subst h
      simp [serveReturned_closed]
    · simp [serveReturned_fatal _ _ h, h]
  · rw [hstep]
    by_cases hsh : p.inShutdown = true
    · rw [if_pos hsh, (finishServe_fields p _).2.2.2.2.2.2.1, serveReturned_closed]
      simp [hsh]
    · rw [if_neg hsh]
      cases io with
      | none =>
        simp only [Option.isSome_none]
        split_ifs <;> simp [hex]
      | some msg =>
        simp only []
        rw [(finishServe_fields p _).2.2.2.2.2.2.1, serveReturned_fatal _ _ (by simp)]
        simpa using hsh
  · intro msg hsh
    have hs : step durationString p (.serve (some msg)) = finishServe p (.other msg) := by
      rw [step_of_running durationString p _ hex]
      rcases hpc with h | h <;> simp [stepServe, h, hsh]
    rw [hs, (finishServe_fields p _).2.2.2.2.2.2.2, serveReturned_fatal _ _ (by simp)]
    exact logOutput_record _ _
  · intro hsh
    rw [hstep, if_pos hsh, (finishServe_fields p _).2.2.2.2.2.2.1,
      (finishServe_fields p _).2.2.2.2.2.2.2, serveReturned_closed]
    exact ⟨rfl, rfl⟩

/-- Witness of C8: the serving goroutine is about to bind the listener and the port is
in use; the process ends with status 1. -/
theorem listen_and_serve_outcomes_witness :
    (run constantDuration [.main, .serve none]).exit = none ∧
    ((run constantDuration [.main, .serve none]).servePc = .listen ∨
      (run constantDuration [.main, .serve none]).servePc = .serving) ∧
    ((step constantDuration (run constantDuration [.main, .serve none])
        (.serve (some (ascii "listen tcp :9090: bind: address already in use")))).exit
        = some (.code 1) ↔
      ((run constantDuration [.main, .serve none]).inShutdown = false ∧
        (some (ascii "listen tcp :9090: bind: address already in use")).isSome = true)) :=
  ⟨by decide, Or.inl (by decide),
    (listen_and_serve_outcomes constantDuration (run constantDuration [.main, .serve none])
      (some (ascii "listen tcp :9090: bind: address already in use")) .ErrServerClosed []
      (by decide) (Or.inl (by decide))).2.2.2.2.2.2.1⟩

end Greeter
